import Mathlib

/-!
Verification of the FiableAuto mission-tracking backend
(`src/unnamed/part_000`, the enhanced server, and `src/server.js`, the
minimal variant).

The JavaScript handlers are shallowly embedded: JS strings are modelled
as `List Char` (the server only manipulates ASCII codes, so bytewise
Postgres collation, JS `split`, `parseInt`, `toString` and template
literals are all faithfully reproduced at the character-list level);
`CURRENT_TIMESTAMP` / `Date.now()` become an explicit `now : Nat`
parameter; the Postgres tables become lists of records inside a `DB`
state, and each route handler becomes a state-passing function returning
an HTTP-style result.
-/

/-- JS strings / SQL text values, modelled as lists of characters. -/

abbrev Str := List Char

/-- The decimal digit character for `d < 10` (code point `48 + d`),
as produced by JS `Number.prototype.toString`. -/

def digChar (d : Nat) : Char := Char.ofNat (48 + d)

/-- Fuel-driven decimal rendering of a natural number (most significant
digit first). The fuel is consumed once per removed digit. -/

def natDigitsAux : Nat → Nat → List Char
  | 0, _ => []
  | fuel + 1, n =>
    if n < 10 then [digChar n] else natDigitsAux fuel (n / 10) ++ [digChar (n % 10)]

/-- Decimal rendering of a natural number, the model of JS
`n.toString()` (and of Postgres `id::text`). -/

def natDigits (n : Nat) : List Char := natDigitsAux (n + 1) n

/-- Left-pad a character list with `'0'` up to width `w`:
JS `s.padStart(w, '0')`. -/

def padTo (w : Nat) (l : List Char) : List Char :=
  List.replicate (w - l.length) '0' ++ l

/-- JS `` `${n}`.padStart(3, '0') `` as used for mission-code sequences. -/

def pad3 (n : Nat) : Str := padTo 3 (natDigits n)

/-- Numeric value of a digit string (the digits-only core of JS
`parseInt`). -/

def valDigits (l : List Char) : Nat :=
  l.foldl (fun a c => a * 10 + (c.toNat - 48)) 0

/-- Bytewise (ASCII) strict lexicographic comparison, the order Postgres
uses for `ORDER BY mission_code` on these ASCII codes. -/

def lexLt : Str → Str → Bool
  | _, [] => false
  | [], _ :: _ => true
  | a :: as, b :: bs =>
    if a.toNat < b.toNat then true
    else if b.toNat < a.toNat then false
    else lexLt as bs

/-- `ORDER BY mission_code DESC LIMIT 1`: the greatest string of a list,
`none` when the result set is empty. -/

def maxStr (l : List Str) : Option Str :=
  l.foldl (fun acc c =>
    match acc with
    | none => some c
    | some m => if lexLt m c then some c else some m) none

/-- JS `code.split('-')`: split a character list at every `'-'`,
keeping empty segments. -/

def splitDash : Str → List Str
  | [] => [[]]
  | c :: cs =>
    if c = '-' then [] :: splitDash cs
    else
      match splitDash cs with
      | [] => [[c]]
      | g :: gs => (c :: g) :: gs

/-- JS `parseInt(s)` restricted to its defined outcome on this codebase:
the leading run of decimal digits, `none` for `NaN`. -/

def parseIntJS (l : Str) : Option Nat :=
  let t := l.takeWhile (·.isDigit)
  if t.isEmpty then none else some (valDigits t)

/-- `hasPre p s` tests whether `p` is a leading segment of `s`
(the SQL `LIKE 'p%'` test). -/

def hasPre : Str → Str → Bool
  | [], _ => true
  | _ :: _, [] => false
  | p :: ps, c :: cs => p == c && hasPre ps cs

/-- ASCII lowercasing of a character list (the case folding behind
`ILIKE`). -/

def lowerStr (l : Str) : Str := l.map Char.toLower

/-- `hasSub pat s` tests whether `pat` occurs contiguously inside `s`
(the SQL `LIKE '%pat%'` test). -/

def hasSub (pat : Str) : Str → Bool
  | [] => pat.isEmpty
  | c :: rest => hasPre pat (c :: rest) || hasSub pat rest

/-- A row of the `missions` table (the columns the verified behaviour
depends on; payload-only optional columns such as `vehicle_year`,
`license_plate`, `vin`, `urgency` or the provider contact fields carry no
logic in any handler and are omitted). -/

structure Mission where
  id : Nat
  mission_code : Str
  vehicle_brand : Str
  vehicle_model : Str
  pickup_location : Str
  delivery_location : Str
  client_name : Str
  client_email : Str
  status : Str
  created_at : Nat
  updated_at : Nat
  started_at : Option Nat := none
  completed_at : Option Nat := none
  observations : Option Str := none
  client_signature : Option Str := none
deriving DecidableEq, Repr

/-- A row of the `inspections` table (`mission_id` carries a UNIQUE
constraint). `checklist` holds the serialized JSON payload. -/

structure Inspection where
  mission_id : Nat
  observations : Option Str
  signature : Option Str
  checklist : Option Str
  key_count : Option Int
  optional_photos_count : Option Int
  created_at : Nat
  updated_at : Nat
deriving DecidableEq, Repr

/-- A row of the `mission_photos` table (`(mission_id, photo_type)`
carries a UNIQUE constraint; the never-populated GPS/device columns are
omitted). -/

structure Photo where
  id : Nat
  mission_id : Nat
  photo_type : Str
  filename : Str
  original_name : Str
  file_size : Nat
  mime_type : Str
  storage_url : Str
  uploaded_at : Nat
deriving DecidableEq, Repr

/-- The uploaded file object `req.files.photo`. -/

structure FileBlob where
  name : Str
  size : Nat
  mimetype : Str
deriving DecidableEq, Repr

/-- The Postgres database state: the three tables plus the two `SERIAL`
id sequences. -/

structure DB where
  missions : List Mission
  inspections : List Inspection
  photos : List Photo
  nextMissionId : Nat
  nextPhotoId : Nat
deriving DecidableEq, Repr

/-- A freshly initialised database (empty tables, sequences at 1). -/

def db0 : DB := ⟨[], [], [], 1, 1⟩

/-- A handler outcome: the HTTP status plus either the JSON `data`
payload or the error `message`. -/

inductive HResult (α : Type) where
  | success : Nat → α → HResult α
  | failure : Nat → String → HResult α
deriving DecidableEq, Repr

/-- JS truthiness of a request-body string field: absent (`undefined`)
and the empty string are falsy, any other string is truthy. -/

def truthy : Option Str → Bool
  | none => false
  | some s => !s.isEmpty

/-- `now.toISOString().slice(0, 10)` with the dashes removed: the 8-digit UTC
date stamp `YYYYMMDD` (ISO rendering zero-pads year to 4 and month/day
to 2 digits). -/

def dateStamp (y mo dy : Nat) : Str :=
  padTo 4 (natDigits y) ++ padTo 2 (natDigits mo) ++ padTo 2 (natDigits dy)

/-- The fixed part `FA-<date>-` shared by the `LIKE` pattern and every
generated code. -/

def codeStem (st : Str) : Str := ('F' :: 'A' :: '-' :: st) ++ ['-']

/-- The shape of every generated mission code:
`FA-<date>-<seq padded to 3 digits>`. -/

def mkCode (st : Str) (k : Nat) : Str := codeStem st ++ pad3 k

/-- All mission codes currently stored. -/

def missionCodes (l : List Mission) : List Str := l.map (fun m => m.mission_code)

/-- The result set of the lookup
`SELECT mission_code FROM missions WHERE mission_code LIKE 'FA-<date>-%'`. -/

def codesForDate (st : Str) (l : List Mission) : List Str :=
  (l.filter (fun m => hasPre (codeStem st) m.mission_code)).map (fun m => m.mission_code)

/-- `generateMissionCode` (part_000 lines 226-248 / server.js 204-226),
success path: filter codes `LIKE 'FA-<date>-%'`, take the greatest by
string order (`ORDER BY mission_code DESC LIMIT 1`), parse the segment
after the second dash with `parseInt`, add one, pad to 3 digits.
A `NaN` from `parseInt` propagates through `NaN + 1` and renders as the
literal suffix `NaN`. -/

def generateMissionCode (y mo dy : Nat) (missions : List Mission) : Str :=
  match maxStr (codesForDate (dateStamp y mo dy) missions) with
  | none => codeStem (dateStamp y mo dy) ++ pad3 1
  | some last =>
    match (splitDash last).get? 2 with
    | none => codeStem (dateStamp y mo dy) ++ ['N', 'a', 'N']
    | some seg =>
      match parseIntJS seg with
      | none => codeStem (dateStamp y mo dy) ++ ['N', 'a', 'N']
      | some q => codeStem (dateStamp y mo dy) ++ pad3 (q + 1)

/-- `generateMissionCode` with its `try/catch`: when the lookup query
fails (`dbOk = false`) the fallback returns `FA-<date>-` followed by
`Math.floor(Math.random() * 1000)` (a value in `[0, 999]`, modelled as
`rand % 1000`) padded to 3 digits. -/

def generateMissionCodeTry (dbOk : Bool) (rand : Nat) (y mo dy : Nat)
    (missions : List Mission) : Str :=
  if dbOk then generateMissionCode y mo dy missions
  else codeStem (dateStamp y mo dy) ++ pad3 (rand % 1000)

/-- The request body of `POST /api/missions` (required fields; the
remaining pass-through optional columns carry no handler logic). -/

structure CreateBody where
  vehicleBrand : Option Str := none
  vehicleModel : Option Str := none
  pickupLocation : Option Str := none
  deliveryLocation : Option Str := none
  clientName : Option Str := none
  clientEmail : Option Str := none
deriving DecidableEq, Repr

/-- `POST /api/missions` (part_000 lines 301-358): reject with 400 when
any required field is falsy, otherwise generate a code and insert with
`status = 'pending'`. A mission-code collision violates the UNIQUE
constraint, is caught, and surfaces as a 500 with no write. -/

def createMission (y mo dy now : Nat) (db : DB) (b : CreateBody) : HResult Mission × DB :=
  if !(truthy b.vehicleBrand && truthy b.vehicleModel && truthy b.pickupLocation &&
       truthy b.deliveryLocation && truthy b.clientName && truthy b.clientEmail) then
    (.failure 400 "Champs requis manquants", db)
  else if generateMissionCode y mo dy db.missions ∈ missionCodes db.missions then
    (.failure 500 "Erreur lors de la creation de la mission", db)
  else
    let m : Mission := {
        id := db.nextMissionId
        mission_code := generateMissionCode y mo dy db.missions
        vehicle_brand := b.vehicleBrand.getD []
        vehicle_model := b.vehicleModel.getD []
        pickup_location := b.pickupLocation.getD []
        delivery_location := b.deliveryLocation.getD []
        client_name := b.clientName.getD []
        client_email := b.clientEmail.getD []
        status := "pending".data
        created_at := now
        updated_at := now }
    (.success 201 m,
     { db with
        missions := db.missions ++ [m]
        nextMissionId := db.nextMissionId + 1 })

/-- The recognized statuses of the enhanced handler (part_000 line 459). -/

def validStatusesE : List Str :=
  ["pending".data, "assigned".data, "in_progress".data, "photos_taken".data,
   "completed".data, "cancelled".data]

/-- The recognized statuses of the minimal handler (server.js line 367). -/

def validStatusesM : List Str :=
  ["pending".data, "in_progress".data, "completed".data, "cancelled".data]

/-- The row update of the enhanced status handler:
`SET status = $2, updated_at = CURRENT_TIMESTAMP` plus `started_at` for
`in_progress` and `completed_at` for `completed`. -/

def statusRowE (now : Nat) (st : Str) (m : Mission) : Mission :=
  { m with
    status := st
    updated_at := now
    started_at := if st = "in_progress".data then some now else m.started_at
    completed_at := if st = "completed".data then some now else m.completed_at }

/-- The row update of the minimal status handler: identical except that
`updated_at` is not part of the `SET` list (server.js line 374). -/

def statusRowM (now : Nat) (st : Str) (m : Mission) : Mission :=
  { m with
    status := st
    started_at := if st = "in_progress".data then some now else m.started_at
    completed_at := if st = "completed".data then some now else m.completed_at }

/-- `PUT /api/missions/:id/status`, enhanced variant (part_000 lines
454-499). -/

def setStatusE (now : Nat) (db : DB) (id : Nat) (st : Str) : HResult Mission × DB :=
  if !(validStatusesE.contains st) then (.failure 400 "Statut invalide", db)
  else
    match db.missions.find? (fun m => m.id == id) with
    | none => (.failure 404 "Mission introuvable", db)
    | some m =>
      (.success 200 (statusRowE now st m),
       { db with missions :=
          db.missions.map (fun x => if x.id == id then statusRowE now st x else x) })

/-- `PUT /api/missions/:id/status`, minimal variant (server.js lines
362-407). -/

def setStatusM (now : Nat) (db : DB) (id : Nat) (st : Str) : HResult Mission × DB :=
  if !(validStatusesM.contains st) then (.failure 400 "Statut invalide", db)
  else
    match db.missions.find? (fun m => m.id == id) with
    | none => (.failure 404 "Mission introuvable", db)
    | some m =>
      (.success 200 (statusRowM now st m),
       { db with missions :=
          db.missions.map (fun x => if x.id == id then statusRowM now st x else x) })

/-- The request body of `POST /api/missions/:id/inspection`.
`checklist` is stored through `JSON.stringify`; the model carries the
serialized form. -/

structure InspPayload where
  observations : Option Str := none
  signature : Option Str := none
  checklist : Option Str := none
  keyCount : Option Int := none
  optionalPhotos : Option Int := none
deriving DecidableEq, Repr

/-- The `ON CONFLICT (mission_id) DO UPDATE SET` row replacement: every
inspection field is overwritten from the payload, `updated_at`
refreshed, `created_at` kept. -/

def inspRow (now : Nat) (p : InspPayload) (i : Inspection) : Inspection :=
  { i with
    observations := p.observations
    signature := p.signature
    checklist := p.checklist
    key_count := p.keyCount
    optional_photos_count := p.optionalPhotos
    updated_at := now }

/-- The freshly inserted inspection row. -/

def newInspRow (now : Nat) (id : Nat) (p : InspPayload) : Inspection :=
  { mission_id := id
    observations := p.observations
    signature := p.signature
    checklist := p.checklist
    key_count := p.keyCount
    optional_photos_count := p.optionalPhotos
    created_at := now
    updated_at := now }

/-- The second UPDATE of the inspection handler, mirrored onto the
missions row: `SET observations = $2, client_signature = $3,
updated_at = CURRENT_TIMESTAMP`. -/

def missionSyncRow (now : Nat) (p : InspPayload) (m : Mission) : Mission :=
  { m with
    observations := p.observations
    client_signature := p.signature
    updated_at := now }

/-- `POST /api/missions/:id/inspection` (part_000 lines 361-399): upsert
the inspection keyed by mission id, then mirror `observations` and
`client_signature` onto the missions row. An insert for an id absent
from `missions` violates the foreign key and surfaces as a 500 with no
write. -/

def submitInspection (now : Nat) (db : DB) (id : Nat) (p : InspPayload) :
    HResult Inspection × DB :=
  match db.inspections.find? (fun i => i.mission_id == id) with
  | some old =>
    (.success 200 (inspRow now p old),
     { db with
        inspections :=
          db.inspections.map (fun i => if i.mission_id == id then inspRow now p i else i)
        missions := db.missions.map
          (fun m => if m.id == id then missionSyncRow now p m else m) })
  | none =>
    if db.missions.any (fun m => m.id == id) then
      (.success 200 (newInspRow now id p),
       { db with
          inspections := db.inspections ++ [newInspRow now id p]
          missions := db.missions.map
            (fun m => if m.id == id then missionSyncRow now p m else m) })
    else (.failure 500 "Erreur sauvegarde inspection", db)

/-- The MIME allow-list of the upload handler. -/

def allowedMimeTypes : List Str :=
  ["image/jpeg".data, "image/jpg".data, "image/png".data, "image/webp".data]

/-- The placeholder storage locator built from the photo type (the
URI-escaping of the type tag is left abstract; only equality of the
resulting locator is ever observed). -/

def mockStorageUrl (photoType : Str) : Str :=
  "https://via.placeholder.com/400x300/007bff/ffffff?text=".data ++ photoType

/-- The `ON CONFLICT (mission_id, photo_type) DO UPDATE SET` row
replacement: filename, original name, size, MIME, locator and timestamp
are overwritten, the row id and key are kept. -/

def photoRow (now : Nat) (photo : FileBlob) (url : Str) (p : Photo) : Photo :=
  { p with
    filename := natDigits now ++ '_' :: photo.name
    original_name := photo.name
    file_size := photo.size
    mime_type := photo.mimetype
    storage_url := url
    uploaded_at := now }

/-- `POST /api/uploads/photos/:missionId` (part_000 lines 502-572). -/

def uploadPhoto (now : Nat) (db : DB) (missionId : Nat) (photoType : Str)
    (file : Option FileBlob) : HResult Photo × DB :=
  match file with
  | none => (.failure 400 "Aucun fichier telecharge", db)
  | some photo =>
    if !(allowedMimeTypes.contains photo.mimetype) then
      (.failure 400 "Type de fichier non autorise", db)
    else if !(db.missions.any (fun m => m.id == missionId)) then
      (.failure 404 "Mission introuvable", db)
    else
      let url := mockStorageUrl photoType
      match db.photos.find? (fun p => p.mission_id == missionId && p.photo_type == photoType) with
      | some old =>
        (.success 200 (photoRow now photo url old),
         { db with photos := db.photos.map (fun p =>
            if p.mission_id == missionId && p.photo_type == photoType
            then photoRow now photo url p else p) })
      | none =>
        let np : Photo := {
          id := db.nextPhotoId
          mission_id := missionId
          photo_type := photoType
          filename := natDigits now ++ '_' :: photo.name
          original_name := photo.name
          file_size := photo.size
          mime_type := photo.mimetype
          storage_url := url
          uploaded_at := now }
        (.success 200 np,
         { db with
            photos := db.photos ++ [np]
            nextPhotoId := db.nextPhotoId + 1 })

/-- One entry of the `photos` JSON array built by `json_build_object`
(id, type, url, filename, uploaded_at). -/

structure PhotoSummary where
  id : Nat
  ptype : Str
  url : Str
  filename : Str
  uploaded_at : Nat
deriving DecidableEq, Repr

def photoSummary (p : Photo) : PhotoSummary :=
  ⟨p.id, p.photo_type, p.storage_url, p.filename, p.uploaded_at⟩

/-- The `ORDER BY mp.uploaded_at` relation inside `json_agg`. -/

def byUploadTime (a b : Photo) : Prop := a.uploaded_at ≤ b.uploaded_at

instance : DecidableRel byUploadTime :=
  fun a b => inferInstanceAs (Decidable (a.uploaded_at ≤ b.uploaded_at))

instance : IsTotal Photo byUploadTime := ⟨fun a b => Nat.le_total a.uploaded_at b.uploaded_at⟩

instance : IsTrans Photo byUploadTime := ⟨fun _ _ _ => Nat.le_trans⟩

/-- The aggregated read view: mission row, left-joined inspection
fields, and the photo array (empty via `COALESCE(..., '[]'::json)` when
no photo row exists). -/

structure AggView where
  mission : Mission
  checklist : Option Str
  key_count : Option Int
  optional_photos_count : Option Int
  photos : List PhotoSummary
deriving DecidableEq, Repr

/-- The aggregation query of `GET /api/missions/:code` (part_000 lines
406-428): `LEFT JOIN inspections` (at most one row by the UNIQUE key),
`LEFT JOIN mission_photos` aggregated in `uploaded_at` order. -/

def aggregateMission (db : DB) (m : Mission) : AggView :=
  let insp := db.inspections.find? (fun i => i.mission_id == m.id)
  { mission := m
    checklist := insp.bind (fun i => i.checklist)
    key_count := insp.bind (fun i => i.key_count)
    optional_photos_count := insp.bind (fun i => i.optional_photos_count)
    photos := ((db.photos.filter (fun p => p.mission_id == m.id)).insertionSort
        byUploadTime).map photoSummary }

/-- `GET /api/missions/:code` (part_000 lines 402-451): match rows by
`m.mission_code = $1 OR m.id::text = $1`, 404 when none, otherwise the
aggregated view of the first row. -/

def getMissionByCodeOrId (db : DB) (token : Str) : HResult AggView :=
  match db.missions.filter (fun m => m.mission_code == token || natDigits m.id == token) with
  | [] => .failure 404 "Mission introuvable"
  | m :: _ => .success 200 (aggregateMission db m)

/-- The query parameters of `GET /api/missions/search`. The two date
bounds are compared against `created_at` after the Postgres timestamp
cast, so the model carries them already as timestamps. -/

structure SearchFilters where
  q : Option Str := none
  status : Option Str := none
  dateFrom : Option Nat := none
  dateTo : Option Nat := none
  vehicleBrand : Option Str := none
deriving DecidableEq, Repr

/-- `ILIKE '%pat%'`: case-insensitive containment. -/

def ilikeSub (pat s : Str) : Bool := hasSub (lowerStr pat) (lowerStr s)

/-- The conjunctive WHERE clause built by the search handler (part_000
lines 717-755); each absent-or-empty (falsy) parameter contributes no
condition. -/

def matchesFilters (f : SearchFilters) (m : Mission) : Bool :=
  (match f.q with
   | none => true
   | some q =>
     if q.isEmpty then true
     else ilikeSub q m.mission_code || ilikeSub q m.client_name ||
          ilikeSub q m.vehicle_brand || ilikeSub q m.vehicle_model) &&
  (match f.status with
   | none => true
   | some st => if st.isEmpty then true else m.status == st) &&
  (match f.dateFrom with
   | none => true
   | some d => decide (d ≤ m.created_at)) &&
  (match f.dateTo with
   | none => true
   | some d => decide (m.created_at ≤ d)) &&
  (match f.vehicleBrand with
   | none => true
   | some vb => if vb.isEmpty then true else ilikeSub vb m.vehicle_brand)

/-- The `ORDER BY created_at DESC` relation. -/

def newestFirst (a b : Mission) : Prop := b.created_at ≤ a.created_at

instance : DecidableRel newestFirst :=
  fun a b => inferInstanceAs (Decidable (b.created_at ≤ a.created_at))

instance : IsTotal Mission newestFirst := ⟨fun a b => Nat.le_total b.created_at a.created_at⟩

instance : IsTrans Mission newestFirst := ⟨fun _ _ _ h1 h2 => Nat.le_trans h2 h1⟩

/-- `GET /api/missions/search` (part_000 lines 713-772): conjunctive
filters, newest first, `LIMIT 100`. -/

def searchMissions (db : DB) (f : SearchFilters) : List Mission :=
  ((db.missions.filter (matchesFilters f)).insertionSort newestFirst).take 100

/-- The per-status counts returned by `GET /api/stats`. -/

structure StatusCounts where
  total : Nat
  pending : Nat
  in_progress : Nat
  completed : Nat
  cancelled : Nat
deriving DecidableEq, Repr

/-- `COUNT(*) FILTER (WHERE status = s)`. -/

def countStatus (s : Str) (l : List Mission) : Nat :=
  (l.filter (fun m => m.status == s)).length

def statusCounts (l : List Mission) : StatusCounts :=
  ⟨l.length, countStatus ("pending".data) l, countStatus ("in_progress".data) l,
   countStatus ("completed".data) l, countStatus ("cancelled".data) l⟩

/-- `GET /api/stats` (part_000 lines 251-276): per-status counts; when
the query throws (`dbOk = false`), the catch block answers 200 with all
counts zero instead of propagating the error. -/

def basicStats (dbOk : Bool) (db : DB) : HResult StatusCounts :=
  if dbOk then .success 200 (statusCounts db.missions)
  else .success 200 ⟨0, 0, 0, 0, 0⟩

/-- `DATE_TRUNC('month', created_at)` grouping over the rolling window
`created_at >= NOW() - INTERVAL '12 months'`; the calendar projection
`monthOf` and the window edge `cutoff` are supplied by the clock. -/

def monthlyCounts (monthOf : Nat → Nat) (cutoff : Nat) (l : List Mission) :
    List (Nat × Nat) :=
  let recent := l.filter (fun m => decide (cutoff ≤ m.created_at))
  ((recent.map (fun m => monthOf m.created_at)).dedup.map
    (fun mo => (mo, (recent.filter (fun m => monthOf m.created_at == mo)).length))).mergeSort
    (fun a b => a.1 ≤ b.1)

/-- `CONCAT(vehicle_brand, ' ', vehicle_model)` grouping, count
descending, `LIMIT 10`. -/

def topVehicleCounts (l : List Mission) : List (Str × Nat) :=
  (((l.map (fun m => m.vehicle_brand ++ ' ' :: m.vehicle_model)).dedup.map
    (fun k => (k, (l.filter (fun m => m.vehicle_brand ++ ' ' :: m.vehicle_model == k)).length))).mergeSort
    (fun a b => b.2 ≤ a.2)).take 10

/-- `AVG(EXTRACT(EPOCH FROM (completed_at - created_at)) / 3600)` over
missions with `completed_at IS NOT NULL`; SQL `AVG` of the empty set is
`NULL`. -/

def avgHours (l : List Mission) : Option ℚ :=
  let ds := l.filterMap (fun m =>
    m.completed_at.map (fun c => ((c : ℚ) - (m.created_at : ℚ)) / 3600))
  if ds.isEmpty then none else some (ds.sum / (ds.length : ℚ))

/-- The payload of `GET /api/stats/advanced`. -/

structure AdvancedStats where
  basic : StatusCounts
  monthly : List (Nat × Nat)
  topVehicles : List (Str × Nat)
  avgProcessingHours : ℚ
deriving DecidableEq, Repr

/-- `GET /api/stats/advanced` (part_000 lines 648-710): the four
aggregate sub-queries; a `NULL` average becomes `0` through
`results[3].rows[0]?.avg_hours || 0`. -/

def advancedStats (monthOf : Nat → Nat) (cutoff : Nat) (db : DB) : AdvancedStats :=
  { basic := statusCounts db.missions
    monthly := monthlyCounts monthOf cutoff db.missions
    topVehicles := topVehicleCounts db.missions
    avgProcessingHours := (avgHours db.missions).getD 0 }

/-- One Express path segment pattern: a literal or a `:name`
placeholder. -/

inductive Seg where
  | lit : String → Seg
  | par : String → Seg
deriving DecidableEq, Repr

/-- The app route table, GET method, in registration order
(part_000 lines 214, 251, 279, 402, 648, 713, 775, 808). -/

inductive RouteTag where
  | health
  | stats
  | missionsList
  | missionByCode
  | statsAdvanced
  | missionsSearch
  | reportPdf
  | root
deriving DecidableEq, Repr

def routesGET : List (List Seg × RouteTag) :=
  [([.lit ("api"), .lit ("health")], .health),
   ([.lit ("api"), .lit ("stats")], .stats),
   ([.lit ("api"), .lit ("missions")], .missionsList),
   ([.lit ("api"), .lit ("missions"), .par ("code")], .missionByCode),
   ([.lit ("api"), .lit ("stats"), .lit ("advanced")], .statsAdvanced),
   ([.lit ("api"), .lit ("missions"), .lit ("search")], .missionsSearch),
   ([.lit ("api"), .lit ("reports"), .par ("missionId"), .lit ("pdf")], .reportPdf),
   ([], .root)]

/-- Match a route pattern against a path, collecting `req.params`. -/

def matchSegs : List Seg → List String → Option (List (String × String))
  | [], [] => some []
  | [], _ :: _ => none
  | _ :: _, [] => none
  | .lit s :: ps, x :: xs => if s = x then matchSegs ps xs else none
  | .par n :: ps, x :: xs => (matchSegs ps xs).map (fun r => (n, x) :: r)

def firstRouteMatch : List (List Seg × RouteTag) → List String →
    Option (RouteTag × List (String × String))
  | [], _ => none
  | (pat, tag) :: rest, path =>
    match matchSegs pat path with
    | some ps => some (tag, ps)
    | none => firstRouteMatch rest path

/-- Express dispatch for a GET request: the first registered route whose
pattern matches wins. -/

def dispatchGET (path : List String) : Option (RouteTag × List (String × String)) :=
  firstRouteMatch routesGET path

/-- A well-formed date stamp: 8 characters, all digits. -/

def stampOK (st : Str) : Prop := st.length = 8 ∧ ∀ c ∈ st, c.isDigit

/-- The store invariant maintained by the create operation: codes are
pairwise distinct, every code is `FA-<8-digit stamp>-<padded k>` with
`1 ≤ k ≤ 1000`, and for each date the stored sequence numbers are
exactly `1 .. n` where `n` is the number of codes carrying that date. -/

def CodesInv (l : List Mission) : Prop :=
  (missionCodes l).Nodup ∧
  (∀ m ∈ l, ∃ st k, stampOK st ∧ 1 ≤ k ∧ k ≤ 1000 ∧ m.mission_code = mkCode st k) ∧
  (∀ st, stampOK st → ∀ k, 1 ≤ k →
    (mkCode st k ∈ missionCodes l ↔ k ≤ (codesForDate st l).length))

/-- The database states reachable from a fresh database through
successful create operations (each step carries a valid clock date). -/

inductive ReachableCreates : DB → Prop where
  | init : ReachableCreates db0
  | step {db : DB} {y mo dy now : Nat} {b : CreateBody} {m : Mission} {db' : DB} :
      ReachableCreates db → y ≤ 9999 → mo ≤ 99 → dy ≤ 99 →
      createMission y mo dy now db b = (.success 201 m, db') →
      ReachableCreates db'

/-- `k` is the smallest sequence number not yet used for date stamp `st`
in store `l`. -/

def IsSmallestUnusedSeq (st : Str) (l : List Mission) (k : Nat) : Prop :=
  1 ≤ k ∧ mkCode st k ∉ missionCodes l ∧
  ∀ j, 1 ≤ j → j < k → mkCode st j ∈ missionCodes l

/-- Sample creation request used by concrete witnesses. -/

def renaultBody : CreateBody :=
  { vehicleBrand := some ("Renault".data)
    vehicleModel := some ("Clio".data)
    pickupLocation := some ("Paris".data)
    deliveryLocation := some ("Lyon".data)
    clientName := some ("A".data)
    clientEmail := some ("a@x.com".data) }

/-- The mission row produced by creating `renaultBody` on 2024-03-01 in
an empty store at clock 100. -/

def sampleMission : Mission :=
  { id := 1
    mission_code := "FA-20240301-001".data
    vehicle_brand := "Renault".data
    vehicle_model := "Clio".data
    pickup_location := "Paris".data
    delivery_location := "Lyon".data
    client_name := "A".data
    client_email := "a@x.com".data
    status := "pending".data
    created_at := 100
    updated_at := 100 }

def sampleDb : DB :=
  { missions := [sampleMission], inspections := [], photos := [],
    nextMissionId := 2, nextPhotoId := 1 }

/-- A creation request with every required field present, but the brand
present as the empty string. -/

def emptyBrandBody : CreateBody := { renaultBody with vehicleBrand := some [] }

/-- First sample inspection payload. -/

def inspPayload1 : InspPayload :=
  { observations := some ("premiere".data), signature := some ("sigA".data),
    checklist := some ("clA".data), keyCount := some 2, optionalPhotos := some 1 }

/-- Second sample inspection payload. -/

def inspPayload2 : InspPayload :=
  { observations := some ("deuxieme".data), signature := some ("sigB".data),
    checklist := some ("clB".data), keyCount := some 3, optionalPhotos := some 0 }

/-- Sample JPEG upload. -/

def fileBlob1 : FileBlob :=
  { name := "avant.jpg".data, size := 111, mimetype := "image/jpeg".data }

/-- Sample PNG upload. -/

def fileBlob2 : FileBlob :=
  { name := "avant2.png".data, size := 222, mimetype := "image/png".data }

/-- Sample photo uploaded second but listed first (upload time 50). -/

def samplePhotoA : Photo :=
  { id := 1, mission_id := 1, photo_type := "front".data, filename := "f1.jpg".data,
    original_name := "o1.jpg".data, file_size := 10, mime_type := "image/jpeg".data,
    storage_url := "u1".data, uploaded_at := 50 }

/-- Sample photo with the earlier upload time 40. -/

def samplePhotoB : Photo :=
  { id := 2, mission_id := 1, photo_type := "rear".data, filename := "f2.png".data,
    original_name := "o2.png".data, file_size := 20, mime_type := "image/png".data,
    storage_url := "u2".data, uploaded_at := 40 }

def sampleInspection : Inspection :=
  { mission_id := 1, observations := some ("etat ok".data), signature := some ("sig".data),
    checklist := some ("cl".data), key_count := some 2, optional_photos_count := some 1,
    created_at := 5, updated_at := 5 }

/-- A store with one mission, its inspection, and two photos stored out
of upload order. -/

def aggDb : DB :=
  { missions := [sampleMission], inspections := [sampleInspection],
    photos := [samplePhotoA, samplePhotoB], nextMissionId := 2, nextPhotoId := 3 }

/-- The empty query string: no filter parameter supplied. -/

def noFilters : SearchFilters := {}

/-- A completed Renault mission for the search scenario. -/

def renaultCompletedMission : Mission := { sampleMission with status := "completed".data }

/-- C10: the path `/api/missions/search` is captured by the earlier
registered route `/api/missions/:code` with the parameter bound to the
literal `search`, it is never dispatched to the search route, and in any
store containing no mission whose code or id-text equals `search` the
request therefore answers 404. -/

theorem natDigitsAux_congr : ∀ f₁ f₂ n, n < f₁ → n < f₂ →
    natDigitsAux f₁ n = natDigitsAux f₂ n := by
  intro f₁
  induction f₁ with
  | zero => intro f₂ n h; omega
  | succ a ih =>
    intro f₂ n h1 h2
    match f₂, h2 with
    | b + 1, h2 =>
      simp only [natDigitsAux]
      by_cases hn : n < 10
      · simp [hn]
      · have hd : n / 10 < n := Nat.div_lt_self (by omega) (by omega)
        simp only [hn, if_false]
        rw [ih b (n / 10) (by omega) (by omega)]

/-- Recursion equation for `natDigits`. -/
theorem natDigits_eq (n : Nat) :
    natDigits n = if n < 10 then [digChar n] else natDigits (n / 10) ++ [digChar (n % 10)] := by
  have hL : natDigits n =
      if n < 10 then [digChar n] else natDigitsAux n (n / 10) ++ [digChar (n % 10)] := rfl
  rw [hL]
  by_cases hn : n < 10
  · simp [hn]
  · simp only [hn, if_false]
    rw [natDigitsAux_congr n (n / 10 + 1) (n / 10) (by omega) (by omega)]
    rfl

theorem natDigits_ne_nil (n : Nat) : natDigits n ≠ [] := by
  rw [natDigits_eq]
  by_cases hn : n < 10 <;> simp [hn]

theorem digChar_isDigit : ∀ d, d < 10 → (digChar d).isDigit := by decide

/-- Every character emitted by `natDigits` is a decimal digit. -/
theorem natDigits_isDigit (n : Nat) : ∀ c ∈ natDigits n, c.isDigit := by
  induction n using Nat.strong_induction_on with
  | _ n ih =>
    rw [natDigits_eq]
    by_cases hn : n < 10
    · simp only [hn, if_true, List.mem_singleton]
      rintro c rfl
      exact digChar_isDigit n hn
    · have hd : n / 10 < n := Nat.div_lt_self (by omega) (by omega)
      simp only [hn, if_false, List.mem_append, List.mem_singleton]
      rintro c (hc | rfl)
      · exact ih (n / 10) hd c hc
      · exact digChar_isDigit (n % 10) (Nat.mod_lt _ (by omega))

theorem valDigits_append (xs : List Char) (c : Char) :
    valDigits (xs ++ [c]) = valDigits xs * 10 + (c.toNat - 48) := by
  simp [valDigits, List.foldl_append]

theorem valDigitsFrom (l : List Char) :
    ∀ a, l.foldl (fun a c => a * 10 + (c.toNat - 48)) a =
      a * 10 ^ l.length + valDigits l := by
  induction l with
  | nil => intro a; simp [valDigits]
  | cons c cs ih =>
    intro a
    simp only [List.foldl_cons, List.length_cons, valDigits]
    rw [ih, ih (0 * 10 + (c.toNat - 48))]
    ring

theorem digChar_toNat (d : Nat) (hd : d < 10) : (digChar d).toNat = 48 + d := by
  revert hd; revert d; decide

/-- `valDigits` inverts `natDigits`. -/
theorem valDigits_natDigits (n : Nat) : valDigits (natDigits n) = n := by
  induction n using Nat.strong_induction_on with
  | _ n ih =>
    rw [natDigits_eq]
    by_cases hn : n < 10
    · simp only [hn, if_true]
      simp [valDigits, digChar_toNat n hn]
    · have hd : n / 10 < n := Nat.div_lt_self (by omega) (by omega)
      simp only [hn, if_false]
      rw [valDigits_append, ih (n / 10) hd, digChar_toNat (n % 10) (Nat.mod_lt _ (by omega))]
      omega

/-- Leading zeros do not change the parsed value. -/
theorem valDigits_padTo (w : Nat) (l : List Char) :
    valDigits (padTo w l) = valDigits l := by
  unfold padTo
  generalize w - l.length = k
  induction k with
  | zero => simp
  | succ a ih =>
    rw [List.replicate_succ]
    simpa [valDigits, List.foldl_cons] using ih

theorem valDigits_pad3 (n : Nat) : valDigits (pad3 n) = n := by
  rw [pad3, valDigits_padTo, valDigits_natDigits]

theorem pad3_injective {a b : Nat} (h : pad3 a = pad3 b) : a = b := by
  have := congrArg valDigits h
  rwa [valDigits_pad3, valDigits_pad3] at this

theorem natDigits_length_le : ∀ w n, n < 10 ^ w → 1 ≤ w → (natDigits n).length ≤ w := by
  intro w
  induction w with
  | zero => omega
  | succ a ih =>
    intro n hn _
    rw [natDigits_eq]
    by_cases h10 : n < 10
    · simp only [h10, if_true, List.length_singleton]
      omega
    · have hd : n / 10 < 10 ^ a := by
        have : 10 ^ (a + 1) = 10 ^ a * 10 := by ring
        omega
      simp only [h10, if_false, List.length_append, List.length_singleton]
      have ha : 1 ≤ a := by
        by_contra hcon
        have : a = 0 := by omega
        subst this
        simp at hd
        omega
      have := ih (n / 10) hd ha
      omega

theorem natDigits_length_ge : ∀ w n, 10 ^ w ≤ n → w + 1 ≤ (natDigits n).length := by
  intro w
  induction w with
  | zero =>
    intro n _
    have := natDigits_ne_nil n
    cases hh : natDigits n with
    | nil => exact absurd hh this
    | cons a l => simp
  | succ a ih =>
    intro n hn
    rw [natDigits_eq]
    have h10 : ¬ n < 10 := by
      have : 10 ≤ 10 ^ (a + 1) := by
        calc 10 = 10 ^ 1 := by ring
        _ ≤ 10 ^ (a + 1) := Nat.pow_le_pow_right (by omega) (by omega)
      omega
    simp only [h10, if_false, List.length_append, List.length_singleton]
    have hd : 10 ^ a ≤ n / 10 := by
      have : 10 ^ (a + 1) = 10 ^ a * 10 := by ring
      rw [this] at hn
      omega
    have := ih (n / 10) hd
    omega

theorem pad3_length_of_le (n : Nat) (h : n ≤ 999) : (pad3 n).length = 3 := by
  have h1 : (natDigits n).length ≤ 3 := natDigits_length_le 3 n (by omega) (by omega)
  simp only [pad3, padTo, List.length_append, List.length_replicate]
  omega

theorem lexLt_irrefl : ∀ l, lexLt l l = false := by
  intro l
  induction l with
  | nil => rfl
  | cons a as ih => simp [lexLt, ih]

theorem lexLt_trans : ∀ a b c, lexLt a b = true → lexLt b c = true → lexLt a c = true := by
  intro a
  induction a with
  | nil =>
    intro b c hab hbc
    cases b with
    | nil => exact hbc
    | cons y ys =>
      cases c with
      | nil => simp [lexLt] at hbc
      | cons z zs => rfl
  | cons x xs ih =>
    intro b c hab hbc
    cases b with
    | nil => simp [lexLt] at hab
    | cons y ys =>
      cases c with
      | nil => simp [lexLt] at hbc
      | cons z zs =>
        simp only [lexLt] at hab hbc ⊢
        by_cases hxy : x.toNat < y.toNat <;> by_cases hyz : y.toNat < z.toNat
        · simp [show x.toNat < z.toNat by omega]
        · simp only [hyz, if_false] at hbc
          by_cases hzy : z.toNat < y.toNat
          · simp [hzy] at hbc
          · simp [show x.toNat < z.toNat by omega]
        · simp only [hxy, if_false] at hab
          by_cases hyx : y.toNat < x.toNat
          · simp [hyx] at hab
          · simp [show x.toNat < z.toNat by omega]
        · simp only [hxy, if_false] at hab
          simp only [hyz, if_false] at hbc
          by_cases hyx : y.toNat < x.toNat
          · simp [hyx] at hab
          · by_cases hzy : z.toNat < y.toNat
            · simp [hzy] at hbc
            · simp only [show ¬ x.toNat < z.toNat by omega, if_false,
                show ¬ z.toNat < x.toNat by omega]
              exact ih ys zs (by simpa [hyx] using hab) (by simpa [hzy] using hbc)

theorem lexLt_total_eq : ∀ a b, lexLt a b = false → lexLt b a = false → a = b := by
  intro a
  induction a with
  | nil =>
    intro b hab _
    cases b with
    | nil => rfl
    | cons y ys => simp [lexLt] at hab
  | cons x xs ih =>
    intro b hab hba
    cases b with
    | nil => simp [lexLt] at hba
    | cons y ys =>
      simp only [lexLt] at hab hba
      by_cases hxy : x.toNat < y.toNat
      · simp [hxy] at hab
      · by_cases hyx : y.toNat < x.toNat
        · simp [hyx] at hba
        · have hx : x = y := by
            have : x.toNat = y.toNat := by omega
            exact Char.ext (UInt32.toNat.inj this)
          subst hx
          simp only [hxy, if_false, lexLt_irrefl] at hab hba
          rw [ih ys (by simpa [hxy] using hab) (by simpa [hxy] using hba)]

/-- Common-prefix cancellation for `lexLt`. -/
theorem lexLt_append_same : ∀ p a b, lexLt (p ++ a) (p ++ b) = lexLt a b := by
  intro p
  induction p with
  | nil => intro a b; rfl
  | cons c cs ih =>
    intro a b
    simp only [List.cons_append, lexLt, Nat.lt_irrefl, if_false]
    exact ih a b

theorem maxStr_go_mem : ∀ (l : List Str) (m : Str),
    l.foldl (fun acc c =>
      match acc with
      | none => some c
      | some m => if lexLt m c then some c else some m) (some m) = some m ∨
    ∃ r ∈ l, l.foldl (fun acc c =>
      match acc with
      | none => some c
      | some m => if lexLt m c then some c else some m) (some m) = some r := by
  intro l
  induction l with
  | nil => intro m; left; rfl
  | cons x xs ih =>
    intro m
    simp only [List.foldl_cons]
    by_cases h : lexLt m x
    · simp only [h, if_true]
      rcases ih x with h1 | ⟨r, hr, h2⟩
      · right; exact ⟨x, by simp, h1⟩
      · right; exact ⟨r, by simp [hr], h2⟩
    · simp only [h, if_false]
      rcases ih m with h1 | ⟨r, hr, h2⟩
      · left; exact h1
      · right; exact ⟨r, by simp [hr], h2⟩

theorem maxStr_mem (l : List Str) (m : Str) (h : maxStr l = some m) : m ∈ l := by
  cases l with
  | nil => simp [maxStr] at h
  | cons x xs =>
    simp only [maxStr, List.foldl_cons] at h
    rcases maxStr_go_mem xs x with h1 | ⟨r, hr, h2⟩
    · rw [h1] at h
      simp at h
      simp [h]
    · rw [h2] at h
      simp at h
      subst h
      simp [hr]

theorem maxStr_go_dom : ∀ (l : List Str) (m r : Str),
    l.foldl (fun acc c =>
      match acc with
      | none => some c
      | some m => if lexLt m c then some c else some m) (some m) = some r →
    lexLt r m = false ∧ ∀ x ∈ l, lexLt r x = false := by
  intro l
  induction l with
  | nil =>
    intro m r h
    simp only [List.foldl_nil, Option.some_inj] at h
    subst h
    exact ⟨lexLt_irrefl _, by simp⟩
  | cons x xs ih =>
    intro m r h
    simp only [List.foldl_cons] at h
    by_cases hmx : lexLt m x
    · simp only [hmx, if_true] at h
      rcases ih x r h with ⟨h1, h2⟩
      constructor
      · by_cases hrm : lexLt r m
        · exact absurd (lexLt_trans r m x hrm hmx) (by simp [h1])
        · simpa using hrm
      · intro y hy
        rcases List.mem_cons.mp hy with rfl | hy'
        · exact h1
        · exact h2 y hy'
    · simp only [hmx, if_false] at h
      rcases ih m r h with ⟨h1, h2⟩
      refine ⟨h1, ?_⟩
      intro y hy
      rcases List.mem_cons.mp hy with rfl | hy'
      · by_cases hmr : lexLt m r
        · by_contra hc
          have hry : lexLt r y = true := by simpa using hc
          exact absurd (lexLt_trans m r y hmr hry) (by simp [hmx])
        · have hmeq : m = r := lexLt_total_eq m r (by simpa using hmr) h1
          rw [← hmeq]
          simpa using hmx
      · exact h2 y hy'

theorem maxStr_dom (l : List Str) (m : Str) (h : maxStr l = some m) :
    ∀ x ∈ l, lexLt m x = false := by
  cases l with
  | nil => simp [maxStr] at h
  | cons x xs =>
    simp only [maxStr, List.foldl_cons] at h
    rcases maxStr_go_dom xs x m h with ⟨h1, h2⟩
    intro y hy
    rcases List.mem_cons.mp hy with rfl | hy'
    · exact h1
    · exact h2 y hy'

theorem maxStr_go_isSome : ∀ (l : List Str) (m : Str), ∃ r,
    l.foldl (fun acc c =>
      match acc with
      | none => some c
      | some m => if lexLt m c then some c else some m) (some m) = some r := by
  intro l
  induction l with
  | nil => intro m; exact ⟨m, rfl⟩
  | cons x xs ih =>
    intro m
    simp only [List.foldl_cons]
    by_cases h : lexLt m x
    · simpa [h] using ih x
    · simpa [h] using ih m

theorem maxStr_ne_none (l : List Str) (hne : l ≠ []) : ∃ m, maxStr l = some m := by
  cases l with
  | nil => exact absurd rfl hne
  | cons x xs =>
    simp only [maxStr, List.foldl_cons]
    exact maxStr_go_isSome xs x

theorem splitDash_no_dash (l : Str) (h : ∀ c ∈ l, c ≠ '-') : splitDash l = [l] := by
  induction l with
  | nil => rfl
  | cons c cs ih =>
    have hc : c ≠ '-' := h c (by simp)
    simp only [splitDash, hc, if_false]
    rw [ih (fun x hx => h x (by simp [hx]))]

theorem splitDash_append (xs ys : Str) (h : ∀ c ∈ xs, c ≠ '-') :
    splitDash (xs ++ '-' :: ys) = xs :: splitDash ys := by
  induction xs with
  | nil => simp [splitDash]
  | cons c cs ih =>
    have hc : c ≠ '-' := h c (by simp)
    simp only [List.cons_append, splitDash, hc, if_false, List.append_eq]
    rw [ih (fun x hx => h x (by simp [hx]))]

theorem takeWhile_all {p : Char → Bool} (l : Str) (h : ∀ c ∈ l, p c) :
    l.takeWhile p = l := by
  induction l with
  | nil => rfl
  | cons c cs ih =>
    simp only [List.takeWhile_cons, h c (by simp), if_true]
    rw [ih (fun x hx => h x (by simp [hx]))]

theorem parseIntJS_digits (l : Str) (hd : ∀ c ∈ l, c.isDigit) (hne : l ≠ []) :
    parseIntJS l = some (valDigits l) := by
  unfold parseIntJS
  rw [takeWhile_all l hd]
  simp [List.isEmpty_iff, hne]

theorem hasPre_iff (p l : Str) : hasPre p l = true ↔ ∃ r, l = p ++ r := by
  induction p generalizing l with
  | nil => simp [hasPre]
  | cons x xs ih =>
    cases l with
    | nil =>
      simp only [hasPre]
      constructor
      · intro h; cases h
      · rintro ⟨r, hr⟩; cases hr
    | cons c cs =>
      simp only [hasPre, Bool.and_eq_true, beq_iff_eq, ih cs, List.cons_append, List.cons_eq_cons]
      constructor
      · rintro ⟨rfl, r, rfl⟩; exact ⟨r, rfl, rfl⟩
      · rintro ⟨r, rfl, rfl⟩; exact ⟨rfl, r, rfl⟩

theorem hasPre_append_self (p r : Str) : hasPre p (p ++ r) = true :=
  (hasPre_iff p (p ++ r)).mpr ⟨r, rfl⟩

theorem digChar_toNat_lt {a b : Nat} (ha : a < 10) (hb : b < 10) :
    ((digChar a).toNat < (digChar b).toNat) ↔ a < b := by
  rw [digChar_toNat a ha, digChar_toNat b hb]
  omega

theorem pad3_eq_digits (n : Nat) (h : n ≤ 999) :
    pad3 n = [digChar (n / 100), digChar (n / 10 % 10), digChar (n % 10)] := by
  by_cases h10 : n < 10
  · have hnd : natDigits n = [digChar n] := by rw [natDigits_eq]; simp [h10]
    simp only [pad3, padTo, hnd, List.length_singleton]
    have e1 : n / 100 = 0 := by omega
    have e2 : n / 10 % 10 = 0 := by omega
    have e3 : n % 10 = n := by omega
    rw [e1, e2, e3]
    rfl
  · by_cases h100 : n < 100
    · have hq : n / 10 < 10 := by omega
      have hnd : natDigits n = [digChar (n / 10), digChar (n % 10)] := by
        rw [natDigits_eq]
        simp only [h10, if_false]
        rw [natDigits_eq]
        simp [hq]
      simp only [pad3, padTo, hnd, List.length_cons, List.length_singleton]
      have e1 : n / 100 = 0 := by omega
      have e2 : n / 10 % 10 = n / 10 := by omega
      rw [e1, e2]
      rfl
    · have hq1 : ¬ n / 10 < 10 := by omega
      have hq2 : n / 10 / 10 < 10 := by omega
      have hdd : n / 10 / 10 = n / 100 := by omega
      have hnd : natDigits n = [digChar (n / 100), digChar (n / 10 % 10), digChar (n % 10)] := by
        rw [natDigits_eq]
        simp only [h10, if_false]
        rw [natDigits_eq]
        simp only [hq1, if_false]
        rw [hdd, natDigits_eq]
        simp [show n / 100 < 10 by omega]
      simp only [pad3, padTo, hnd, List.length_cons, List.length_singleton]
      rfl

/-- Strict monotonicity of the 3-padded decimal rendering on `[0, 999]`,
hence on mission-code sequence suffixes. -/
theorem pad3_lexLt {a b : Nat} (hab : a < b) (hb : b ≤ 999) :
    lexLt (pad3 a) (pad3 b) = true := by
  rw [pad3_eq_digits a (by omega), pad3_eq_digits b hb]
  have e1 := digChar_toNat (a / 100) (by omega)
  have e2 := digChar_toNat (b / 100) (by omega)
  have e3 := digChar_toNat (a / 10 % 10) (by omega)
  have e4 := digChar_toNat (b / 10 % 10) (by omega)
  have e5 := digChar_toNat (a % 10) (by omega)
  have e6 := digChar_toNat (b % 10) (by omega)
  simp only [lexLt, e1, e2, e3, e4, e5, e6]
  split_ifs <;> first | rfl | omega

theorem padTo_length (w : Nat) (l : List Char) (h : l.length ≤ w) :
    (padTo w l).length = w := by
  simp only [padTo, List.length_append, List.length_replicate]
  omega

theorem padTo_isDigit (w : Nat) (l : List Char) (h : ∀ c ∈ l, c.isDigit) :
    ∀ c ∈ padTo w l, c.isDigit := by
  intro c hc
  rcases List.mem_append.mp hc with hz | hl
  · rw [List.eq_of_mem_replicate hz]
    decide
  · exact h c hl

theorem dateStamp_ok (y mo dy : Nat) (hy : y ≤ 9999) (hmo : mo ≤ 99) (hdy : dy ≤ 99) :
    stampOK (dateStamp y mo dy) := by
  constructor
  · simp only [dateStamp, List.length_append]
    rw [padTo_length 4 _ (natDigits_length_le 4 y (by omega) (by omega)),
      padTo_length 2 _ (natDigits_length_le 2 mo (by omega) (by omega)),
      padTo_length 2 _ (natDigits_length_le 2 dy (by omega) (by omega))]
  · intro c hc
    simp only [dateStamp, List.mem_append] at hc
    rcases hc with (h1 | h2) | h3
    · exact padTo_isDigit 4 _ (natDigits_isDigit y) c h1
    · exact padTo_isDigit 2 _ (natDigits_isDigit mo) c h2
    · exact padTo_isDigit 2 _ (natDigits_isDigit dy) c h3

theorem codeStem_length (st : Str) : (codeStem st).length = st.length + 4 := by
  simp [codeStem]

theorem codeStem_inj {st st' : Str} (h : codeStem st = codeStem st') : st = st' := by
  simp only [codeStem, List.cons_append, List.cons_eq_cons, true_and] at h
  exact List.append_cancel_right h

theorem mkCode_inj {st st' : Str} (h8 : st.length = 8) (h8' : st'.length = 8)
    {k k' : Nat} (h : mkCode st k = mkCode st' k') : st = st' ∧ k = k' := by
  have hlen : (codeStem st).length = (codeStem st').length := by
    rw [codeStem_length, codeStem_length, h8, h8']
  rcases List.append_inj h hlen with ⟨h1, h2⟩
  exact ⟨codeStem_inj h1, pad3_injective h2⟩

theorem isDigit_ne_dash {c : Char} (h : c.isDigit) : c ≠ '-' := by
  rintro rfl
  exact absurd h (by decide)

theorem pad3_isDigit (k : Nat) : ∀ c ∈ pad3 k, c.isDigit :=
  padTo_isDigit 3 _ (natDigits_isDigit k)

theorem pad3_ne_nil (k : Nat) : pad3 k ≠ [] := by
  intro h
  have := congrArg List.length h
  simp only [pad3, padTo, List.length_append, List.length_replicate, List.length_nil] at this
  exact absurd (List.length_eq_zero.mp (by omega)) (natDigits_ne_nil k)

/-- `lastCode.split('-')[2]` recovers the padded sequence of a
well-formed code. -/
theorem splitDash_mkCode (st : Str) (hd : ∀ c ∈ st, c.isDigit) (k : Nat) :
    splitDash (mkCode st k) = [['F', 'A'], st, pad3 k] := by
  have hshape : mkCode st k = ['F', 'A'] ++ '-' :: (st ++ '-' :: pad3 k) := by
    simp [mkCode, codeStem]
  rw [hshape, splitDash_append ['F', 'A'] _ (by decide),
    splitDash_append st _ (fun c hc => isDigit_ne_dash (hd c hc)),
    splitDash_no_dash (pad3 k) (fun c hc => isDigit_ne_dash (pad3_isDigit k c hc))]

theorem parseIntJS_pad3 (k : Nat) : parseIntJS (pad3 k) = some k := by
  rw [parseIntJS_digits (pad3 k) (pad3_isDigit k) (pad3_ne_nil k), valDigits_pad3]

/-- `lexLt` on two codes with the same stem compares their padded
sequences. -/
theorem lexLt_mkCode (st : Str) (a b : Nat) :
    lexLt (mkCode st a) (mkCode st b) = lexLt (pad3 a) (pad3 b) :=
  lexLt_append_same (codeStem st) (pad3 a) (pad3 b)

/-- The prefix test of the `LIKE 'FA-<date>-%'` lookup, on a well-formed
code: it identifies the date stamp. -/
theorem hasPre_stem_mkCode {st st' : Str} (h8 : st.length = 8) (h8' : st'.length = 8)
    (k : Nat) : hasPre (codeStem st) (mkCode st' k) = true ↔ st = st' := by
  constructor
  · intro h
    rcases (hasPre_iff _ _).mp h with ⟨r, hr⟩
    have hr' : codeStem st' ++ pad3 k = codeStem st ++ r := hr
    have hlen : (codeStem st').length = (codeStem st).length := by
      rw [codeStem_length, codeStem_length, h8, h8']
    rcases List.append_inj hr' hlen with ⟨h1, _⟩
    exact (codeStem_inj h1).symm
  · rintro rfl
    exact hasPre_append_self _ _

theorem codesForDate_mem {st : Str} {l : List Mission} {c : Str} :
    c ∈ codesForDate st l ↔ ∃ m ∈ l, m.mission_code = c ∧ hasPre (codeStem st) c = true := by
  simp only [codesForDate, List.mem_map, List.mem_filter]
  constructor
  · rintro ⟨m, ⟨hm, hp⟩, rfl⟩
    exact ⟨m, hm, rfl, hp⟩
  · rintro ⟨m, hm, rfl, hp⟩
    exact ⟨m, ⟨hm, hp⟩, rfl⟩

theorem codesForDate_char {st : Str} {l : List Mission} (hInv : CodesInv l)
    (hst : stampOK st) :
    ∀ c, c ∈ codesForDate st l ↔
      ∃ k, 1 ≤ k ∧ k ≤ (codesForDate st l).length ∧ c = mkCode st k := by
  rcases hInv with ⟨_, h2, h3⟩
  intro c
  constructor
  · intro hc
    rcases codesForDate_mem.mp hc with ⟨m, hm, hcode, hp⟩
    rcases h2 m hm with ⟨st', k, hst', hk1, _, hcode'⟩
    have : st = st' := by
      rw [← hcode, hcode'] at hp
      exact (hasPre_stem_mkCode hst.1 hst'.1 k).mp hp
    subst this
    have hc2 : c = mkCode st k := by rw [← hcode, hcode']
    refine ⟨k, hk1, ?_, hc2⟩
    have hmem : mkCode st k ∈ missionCodes l := by
      rw [← hc2, ← hcode]
      exact List.mem_map_of_mem _ hm
    exact (h3 st hst k hk1).mp hmem
  · rintro ⟨k, hk1, hkn, rfl⟩
    have hmem : mkCode st k ∈ missionCodes l := (h3 st hst k hk1).mpr hkn
    rcases List.mem_map.mp hmem with ⟨m, hm, hcode⟩
    exact codesForDate_mem.mpr ⟨m, hm, hcode, hasPre_append_self (codeStem st) (pad3 k)⟩

theorem countFor_le_1000 {st : Str} {l : List Mission} (hInv : CodesInv l)
    (hst : stampOK st) : (codesForDate st l).length ≤ 1000 := by
  by_contra hcon
  have hmem : mkCode st 1001 ∈ missionCodes l :=
    (hInv.2.2 st hst 1001 (by omega)).mpr (by omega)
  rcases List.mem_map.mp hmem with ⟨m, hm, hcode⟩
  rcases hInv.2.1 m hm with ⟨st', k', hst', _, hk1000, hcode'⟩
  rw [hcode'] at hcode
  rcases mkCode_inj hst'.1 hst.1 hcode with ⟨_, hk⟩
  omega

/-- Under the invariant, the `DESC LIMIT 1` lookup returns the code with
the numerically greatest sequence while `n ≤ 999`, and the one with
sequence `999` when `n = 1000` (the string `"999"` compares above
`"1000"`). -/
theorem maxStr_codesForDate {st : Str} {l : List Mission} (hInv : CodesInv l)
    (hst : stampOK st) (hne : codesForDate st l ≠ []) :
    ∃ j, 1 ≤ j ∧ j ≤ (codesForDate st l).length ∧
      maxStr (codesForDate st l) = some (mkCode st j) ∧
      ∀ i, 1 ≤ i → i ≤ (codesForDate st l).length →
        lexLt (mkCode st j) (mkCode st i) = false := by
  rcases maxStr_ne_none _ hne with ⟨mx, hmx⟩
  rcases (codesForDate_char hInv hst mx).mp (maxStr_mem _ _ hmx) with ⟨j, hj1, hjn, rfl⟩
  refine ⟨j, hj1, hjn, hmx, ?_⟩
  intro i hi1 hin
  exact maxStr_dom _ _ hmx (mkCode st i)
    ((codesForDate_char hInv hst (mkCode st i)).mpr ⟨i, hi1, hin, rfl⟩)

theorem pad3_lexLt_1000 : lexLt (pad3 1000) (pad3 999) = true := by decide

theorem generate_of_inv_le {l : List Mission} {y mo dy : Nat} (hInv : CodesInv l)
    (hy : y ≤ 9999) (hmo : mo ≤ 99) (hdy : dy ≤ 99)
    (hn : (codesForDate (dateStamp y mo dy) l).length ≤ 999) :
    generateMissionCode y mo dy l =
      mkCode (dateStamp y mo dy) ((codesForDate (dateStamp y mo dy) l).length + 1) := by
  have hst : stampOK (dateStamp y mo dy) := dateStamp_ok y mo dy hy hmo hdy
  by_cases hzero : codesForDate (dateStamp y mo dy) l = []
  · unfold generateMissionCode
    rw [hzero]
    simp only [maxStr, List.foldl_nil, hzero, List.length_nil]
    rfl
  · rcases maxStr_codesForDate hInv hst hzero with ⟨j, hj1, hjn, hmx, hdom⟩
    have hn1 : 1 ≤ (codesForDate (dateStamp y mo dy) l).length := by
      cases hc : codesForDate (dateStamp y mo dy) l with
      | nil => exact absurd hc hzero
      | cons a as => simp [hc]
    have hj : j = (codesForDate (dateStamp y mo dy) l).length := by
      by_contra hne
      have hjlt : j < (codesForDate (dateStamp y mo dy) l).length := by omega
      have := hdom (codesForDate (dateStamp y mo dy) l).length (by omega) (by omega)
      rw [lexLt_mkCode, pad3_lexLt hjlt (by omega)] at this
      cases this
    unfold generateMissionCode
    rw [hmx]
    simp only [splitDash_mkCode (dateStamp y mo dy) hst.2 j]
    simp only [List.get?, parseIntJS_pad3 j]
    rw [hj]
    rfl

theorem generate_of_inv_full {l : List Mission} {y mo dy : Nat} (hInv : CodesInv l)
    (hy : y ≤ 9999) (hmo : mo ≤ 99) (hdy : dy ≤ 99)
    (hn : (codesForDate (dateStamp y mo dy) l).length = 1000) :
    generateMissionCode y mo dy l = mkCode (dateStamp y mo dy) 1000 := by
  have hst : stampOK (dateStamp y mo dy) := dateStamp_ok y mo dy hy hmo hdy
  have hzero : codesForDate (dateStamp y mo dy) l ≠ [] := by
    intro hc
    rw [hc] at hn
    simp at hn
  rcases maxStr_codesForDate hInv hst hzero with ⟨j, hj1, hjn, hmx, hdom⟩
  have hjne : j ≠ 1000 := by
    intro hj
    have := hdom 999 (by omega) (by omega)
    rw [hj, lexLt_mkCode, pad3_lexLt_1000] at this
    cases this
  have hj : j = 999 := by
    by_contra hne
    have hjlt : j < 999 := by omega
    have := hdom 999 (by omega) (by omega)
    rw [lexLt_mkCode, pad3_lexLt hjlt (by omega)] at this
    cases this
  unfold generateMissionCode
  rw [hmx]
  simp only [splitDash_mkCode (dateStamp y mo dy) hst.2 j]
  simp only [List.get?, parseIntJS_pad3 j]
  rw [hj]
  rfl

theorem missionCodes_append (l : List Mission) (m : Mission) :
    missionCodes (l ++ [m]) = missionCodes l ++ [m.mission_code] := by
  simp [missionCodes]

theorem codesForDate_append (st : Str) (l : List Mission) (m : Mission) :
    codesForDate st (l ++ [m]) =
      codesForDate st l ++
        (if hasPre (codeStem st) m.mission_code then [m.mission_code] else []) := by
  simp only [codesForDate, List.filter_append, List.map_append]
  by_cases hp : hasPre (codeStem st) m.mission_code <;> simp [hp]

theorem codesInv_nil : CodesInv [] := by
  refine ⟨List.nodup_nil, by simp, ?_⟩
  intro st _ k hk
  simp only [missionCodes, List.map_nil, List.not_mem_nil, false_iff, codesForDate,
    List.filter_nil, List.length_nil]
  omega

/-- Inserting the freshly generated code preserves the store invariant;
moreover the insert can only have passed the uniqueness check when at
most 999 codes existed for the date, and then the new code carries
sequence `n + 1`. -/
theorem codesInv_insert {l : List Mission} {y mo dy : Nat} (hInv : CodesInv l)
    (hy : y ≤ 9999) (hmo : mo ≤ 99) (hdy : dy ≤ 99)
    (hnotin : generateMissionCode y mo dy l ∉ missionCodes l) {m : Mission}
    (hm : m.mission_code = generateMissionCode y mo dy l) :
    CodesInv (l ++ [m]) ∧
    (codesForDate (dateStamp y mo dy) l).length ≤ 999 ∧
    m.mission_code = mkCode (dateStamp y mo dy) ((codesForDate (dateStamp y mo dy) l).length + 1) := by
  have hst : stampOK (dateStamp y mo dy) := dateStamp_ok y mo dy hy hmo hdy
  have hn1000 := countFor_le_1000 hInv hst
  have hn : (codesForDate (dateStamp y mo dy) l).length ≤ 999 := by
    by_contra hcon
    have he : (codesForDate (dateStamp y mo dy) l).length = 1000 := by omega
    have := generate_of_inv_full hInv hy hmo hdy he
    rw [this] at hnotin
    exact hnotin ((hInv.2.2 _ hst 1000 (by omega)).mpr (by omega))
  have hgen := generate_of_inv_le hInv hy hmo hdy hn
  have hcode : m.mission_code =
      mkCode (dateStamp y mo dy) ((codesForDate (dateStamp y mo dy) l).length + 1) := by
    rw [hm, hgen]
  refine ⟨⟨?_, ?_, ?_⟩, hn, hcode⟩
  · rw [missionCodes_append]
    simp only [List.nodup_append, List.nodup_singleton, true_and]
    refine ⟨hInv.1, ?_⟩
    intro a ha
    simp only [List.mem_singleton]
    intro hac
    rw [hac, hm] at ha
    exact hnotin ha
  · intro m' hm'
    rcases List.mem_append.mp hm' with hold | hnew
    · exact hInv.2.1 m' hold
    · rw [List.mem_singleton] at hnew
      subst hnew
      exact ⟨dateStamp y mo dy, (codesForDate (dateStamp y mo dy) l).length + 1,
        hst, by omega, by omega, hcode⟩
  · intro st' hst' k hk1
    rw [missionCodes_append, codesForDate_append]
    by_cases hsteq : st' = dateStamp y mo dy
    · have hp : hasPre (codeStem st') m.mission_code = true := by
        rw [hcode, hsteq]
        exact (hasPre_stem_mkCode hst.1 hst.1 _).mpr rfl
      rw [if_pos hp]
      simp only [List.length_append, List.length_singleton, List.mem_append,
        List.mem_singleton]
      rw [hcode]
      have hlenfix : (codesForDate st' l).length = (codesForDate (dateStamp y mo dy) l).length := by
        rw [hsteq]
      constructor
      · rintro (hin | heq)
        · have := (hInv.2.2 st' hst' k hk1).mp hin
          omega
        · rcases mkCode_inj hst'.1 hst.1 heq with ⟨-, hkk⟩
          omega
      · intro hkle
        by_cases hk : k ≤ (codesForDate st' l).length
        · exact Or.inl ((hInv.2.2 st' hst' k hk1).mpr hk)
        · have hke : k = (codesForDate (dateStamp y mo dy) l).length + 1 := by omega
          exact Or.inr (by rw [hke, hsteq])
    · have hp : ¬ (hasPre (codeStem st') m.mission_code = true) := by
        rw [hcode]
        intro hcon
        exact hsteq ((hasPre_stem_mkCode hst'.1 hst.1 _).mp hcon)
      rw [if_neg hp]
      simp only [List.append_nil, List.mem_append, List.mem_singleton]
      rw [hcode]
      constructor
      · rintro (hin | heq)
        · exact (hInv.2.2 st' hst' k hk1).mp hin
        · rcases mkCode_inj hst'.1 hst.1 heq with ⟨hss, -⟩
          exact absurd hss hsteq
      · intro hkle
        exact Or.inl ((hInv.2.2 st' hst' k hk1).mpr hkle)

theorem createMission_success_elim {y mo dy now : Nat} {db : DB} {b : CreateBody}
    {m : Mission} {db' : DB}
    (h : createMission y mo dy now db b = (.success 201 m, db')) :
    m.mission_code = generateMissionCode y mo dy db.missions ∧
    generateMissionCode y mo dy db.missions ∉ missionCodes db.missions ∧
    m.status = "pending".data ∧ m.created_at = now ∧ m.updated_at = now ∧
    m.id = db.nextMissionId ∧
    db' = { db with missions := db.missions ++ [m],
                    nextMissionId := db.nextMissionId + 1 } := by
  unfold createMission at h
  split_ifs at h with h1 h2
  · exact absurd h (by intro hc; simp [Prod.mk.injEq] at hc)
  · exact absurd h (by intro hc; simp [Prod.mk.injEq] at hc)
  · simp only [Prod.mk.injEq, HResult.success.injEq] at h
    obtain ⟨⟨-, hm⟩, hdb⟩ := h
    subst hm
    subst hdb
    exact ⟨rfl, h2, rfl, rfl, rfl, rfl, rfl⟩

theorem reachable_codesInv {db : DB} (h : ReachableCreates db) : CodesInv db.missions := by
  induction h with
  | init => exact codesInv_nil
  | step _ hy hmo hdy hc ih =>
    rcases createMission_success_elim hc with ⟨hm, hnotin, -, -, -, -, hdb⟩
    rw [hdb]
    exact (codesInv_insert ih hy hmo hdy hnotin hm).1

/-- C2: every mission code stored by a successful create matches
`FA-<YYYYMMDD>-<sequence padded to 3 digits>` where the stamp is the
creation date, its sequence is the smallest positive integer unused for
that date at the moment of creation, the code is absent from the store
at that moment, and the store keeps pairwise-distinct codes. -/
theorem C2_mission_code_invariant {db : DB} (hr : ReachableCreates db)
    {y mo dy now : Nat} {b : CreateBody} {m : Mission} {db' : DB}
    (hy : y ≤ 9999) (hmo : mo ≤ 99) (hdy : dy ≤ 99)
    (hc : createMission y mo dy now db b = (.success 201 m, db')) :
    (∃ k, 1 ≤ k ∧ m.mission_code = mkCode (dateStamp y mo dy) k ∧
      IsSmallestUnusedSeq (dateStamp y mo dy) db.missions k) ∧
    m.mission_code ∉ missionCodes db.missions ∧
    (missionCodes db'.missions).Nodup := by
  have hInv := reachable_codesInv hr
  have hst : stampOK (dateStamp y mo dy) := dateStamp_ok y mo dy hy hmo hdy
  rcases createMission_success_elim hc with ⟨hm, hnotin, -, -, -, -, hdb⟩
  rcases codesInv_insert hInv hy hmo hdy hnotin hm with ⟨hInv', hn, hcode⟩
  refine ⟨⟨(codesForDate (dateStamp y mo dy) db.missions).length + 1, by omega, hcode,
    by omega, ?_, ?_⟩, ?_, ?_⟩
  · intro hmem
    have := (hInv.2.2 _ hst _ (by omega)).mp hmem
    omega
  · intro j hj1 hjlt
    exact (hInv.2.2 _ hst j hj1).mpr (by omega)
  · rw [hm]
    exact hnotin
  · rw [hdb]
    exact hInv'.1

theorem C2_mission_code_invariant_witness :
    (∃ k, 1 ≤ k ∧ sampleMission.mission_code = mkCode (dateStamp 2024 3 1) k ∧
      IsSmallestUnusedSeq (dateStamp 2024 3 1) db0.missions k) ∧
    sampleMission.mission_code ∉ missionCodes db0.missions ∧
    (missionCodes sampleDb.missions).Nodup :=
  @C2_mission_code_invariant db0 ReachableCreates.init 2024 3 1 100 renaultBody
    sampleMission sampleDb (by decide) (by decide) (by decide) (by rfl)

/-- C3: behaviour of the code generator. (a) the date stamp has 8
digits; (b) with no stored code for the date the sequence starts at 1;
(c) with a greatest matching code whose trailing segment parses to `q`,
the result is `FA-<date>-<q+1 padded>`; (d) when the lookup fails the
fallback is `FA-<date>-<random 3-digit suffix>`. -/
theorem C3_generate_behaviour :
    (∀ y mo dy, y ≤ 9999 → mo ≤ 99 → dy ≤ 99 → (dateStamp y mo dy).length = 8) ∧
    (∀ y mo dy l, codesForDate (dateStamp y mo dy) l = [] →
      generateMissionCode y mo dy l = mkCode (dateStamp y mo dy) 1) ∧
    (∀ y mo dy l c seg q, c ∈ codesForDate (dateStamp y mo dy) l →
      (∀ c2 ∈ codesForDate (dateStamp y mo dy) l, lexLt c c2 = false) →
      (splitDash c).get? 2 = some seg → parseIntJS seg = some q →
      generateMissionCode y mo dy l = mkCode (dateStamp y mo dy) (q + 1)) ∧
    (∀ rand y mo dy l,
      generateMissionCodeTry false rand y mo dy l = mkCode (dateStamp y mo dy) (rand % 1000) ∧
      (pad3 (rand % 1000)).length = 3) := by
  refine ⟨?_, ?_, ?_, ?_⟩
  · intro y mo dy hy hmo hdy
    exact (dateStamp_ok y mo dy hy hmo hdy).1
  · intro y mo dy l hempty
    unfold generateMissionCode
    rw [hempty]
    rfl
  · intro y mo dy l c seg q hc hdom hseg hq
    have hne : codesForDate (dateStamp y mo dy) l ≠ [] := by
      intro h
      rw [h] at hc
      cases hc
    rcases maxStr_ne_none _ hne with ⟨mx, hmx⟩
    have hceq : c = mx := by
      apply lexLt_total_eq
      · exact hdom mx (maxStr_mem _ _ hmx)
      · exact maxStr_dom _ _ hmx c hc
    subst hceq
    unfold generateMissionCode
    rw [hmx]
    simp only [hseg, hq]
    rfl
  · intro rand y mo dy l
    refine ⟨rfl, pad3_length_of_le _ (by omega)⟩

theorem C3_generate_behaviour_witness :
    (dateStamp 2024 3 1).length = 8 ∧
    generateMissionCode 2024 3 1 [] = mkCode (dateStamp 2024 3 1) 1 ∧
    generateMissionCode 2024 3 1 [sampleMission] = mkCode (dateStamp 2024 3 1) 2 ∧
    (generateMissionCodeTry false 7 2024 3 1 [] = mkCode (dateStamp 2024 3 1) (7 % 1000) ∧
      (pad3 (7 % 1000)).length = 3) :=
  ⟨C3_generate_behaviour.1 2024 3 1 (by decide) (by decide) (by decide),
   C3_generate_behaviour.2.1 2024 3 1 [] (by decide),
   C3_generate_behaviour.2.2.1 2024 3 1 [sampleMission] "FA-20240301-001".data
     "001".data 1 (by decide) (by decide) (by decide) (by decide),
   C3_generate_behaviour.2.2.2 7 2024 3 1 []⟩

/-- With pairwise-distinct ids, `WHERE id = $1` finds exactly the given
row. -/
theorem find?_of_nodup_ids {l : List Mission} (h : (l.map (fun m => m.id)).Nodup)
    {m : Mission} (hm : m ∈ l) {id : Nat} (hid : m.id = id) :
    l.find? (fun x => x.id == id) = some m := by
  induction l with
  | nil => cases hm
  | cons x xs ih =>
    simp only [List.map_cons, List.nodup_cons] at h
    rcases List.mem_cons.mp hm with rfl | hm'
    · exact List.find?_cons_of_pos _ (by simp [hid])
    · have hxf : (x.id == id) = false := by
        simp only [beq_eq_false_iff_ne, ne_eq]
        intro hx
        exact h.1 (by rw [hx, ← hid]; exact List.mem_map_of_mem _ hm')
      simp only [List.find?, hxf]
      exact ih h.2 hm'

/-- C1 counterexample: the minimal-variant status handler
(src/server.js) does not refresh `updated_at`. Transitioning the sample
mission (stored with `updated_at = 100`) to `completed` at clock 5
leaves `updated_at = 100`, not 5. -/
theorem C1_set_status_counterexample :
    validStatusesM.contains ("completed".data) = true ∧
    (setStatusM 5 sampleDb 1 "completed".data).2.missions.map (fun m => m.updated_at) = [100] ∧
    ¬ ((setStatusM 5 sampleDb 1 "completed".data).2.missions.map
        (fun m => m.updated_at) = [5]) := by
  decide

/-- C1 (amended): the full transition contract. Both variants reject an
unrecognized status with 400 touching nothing, answer 404 touching
nothing for an unknown id, and otherwise overwrite `status`
unconditionally, set `started_at` to now exactly for `in_progress` and
`completed_at` exactly for `completed` (never clearing either
otherwise); the enhanced variant always refreshes `updated_at`, while
the minimal variant leaves `updated_at` unchanged. -/
theorem C1_set_status_contract :
    (∀ now db id st, validStatusesE.contains st = false →
      setStatusE now db id st = (.failure 400 "Statut invalide", db)) ∧
    (∀ now db id st, validStatusesE.contains st = true →
      (∀ m ∈ db.missions, m.id ≠ id) →
      setStatusE now db id st = (.failure 404 "Mission introuvable", db)) ∧
    (∀ now db id st m, validStatusesE.contains st = true →
      (db.missions.map (fun x => x.id)).Nodup → m ∈ db.missions → m.id = id →
      ∃ m' db2, setStatusE now db id st = (.success 200 m', db2) ∧
        m' ∈ db2.missions ∧ m'.id = m.id ∧ m'.mission_code = m.mission_code ∧
        m'.status = st ∧ m'.updated_at = now ∧
        m'.started_at = (if st = "in_progress".data then some now else m.started_at) ∧
        m'.completed_at = (if st = "completed".data then some now else m.completed_at) ∧
        (∀ x ∈ db.missions, x.id ≠ id → x ∈ db2.missions)) ∧
    (∀ now db id st, validStatusesM.contains st = false →
      setStatusM now db id st = (.failure 400 "Statut invalide", db)) ∧
    (∀ now db id st, validStatusesM.contains st = true →
      (∀ m ∈ db.missions, m.id ≠ id) →
      setStatusM now db id st = (.failure 404 "Mission introuvable", db)) ∧
    (∀ now db id st m, validStatusesM.contains st = true →
      (db.missions.map (fun x => x.id)).Nodup → m ∈ db.missions → m.id = id →
      ∃ m' db2, setStatusM now db id st = (.success 200 m', db2) ∧
        m' ∈ db2.missions ∧ m'.id = m.id ∧
        m'.status = st ∧ m'.updated_at = m.updated_at ∧
        m'.started_at = (if st = "in_progress".data then some now else m.started_at) ∧
        m'.completed_at = (if st = "completed".data then some now else m.completed_at)) := by
  refine ⟨?_, ?_, ?_, ?_, ?_, ?_⟩
  · intro now db id st h
    unfold setStatusE
    rw [h]
    rfl
  · intro now db id st hv hno
    have hfind : db.missions.find? (fun m => m.id == id) = none := by
      rw [List.find?_eq_none]
      intro x hx
      simp [hno x hx]
    unfold setStatusE
    rw [hv, hfind]
    rfl
  · intro now db id st m hv hnd hm hid
    have hfind : db.missions.find? (fun x => x.id == id) = some m :=
      find?_of_nodup_ids hnd hm hid
    refine ⟨statusRowE now st m,
      { db with missions :=
        db.missions.map (fun x => if x.id == id then statusRowE now st x else x) },
      ?_, ?_, rfl, rfl, rfl, rfl, rfl, rfl, ?_⟩
    · unfold setStatusE
      rw [hv, hfind]
      rfl
    · have : statusRowE now st m ∈ db.missions.map
          (fun x => if x.id == id then statusRowE now st x else x) := by
        have := List.mem_map_of_mem
          (fun x => if x.id == id then statusRowE now st x else x) hm
        simpa [hid] using this
      exact this
    · intro x hx hxid
      have := List.mem_map_of_mem
        (fun y => if y.id == id then statusRowE now st y else y) hx
      simpa [hxid] using this
  · intro now db id st h
    unfold setStatusM
    rw [h]
    rfl
  · intro now db id st hv hno
    have hfind : db.missions.find? (fun m => m.id == id) = none := by
      rw [List.find?_eq_none]
      intro x hx
      simp [hno x hx]
    unfold setStatusM
    rw [hv, hfind]
    rfl
  · intro now db id st m hv hnd hm hid
    have hfind : db.missions.find? (fun x => x.id == id) = some m :=
      find?_of_nodup_ids hnd hm hid
    refine ⟨statusRowM now st m,
      { db with missions :=
        db.missions.map (fun x => if x.id == id then statusRowM now st x else x) },
      ?_, ?_, rfl, rfl, rfl, rfl, rfl⟩
    · unfold setStatusM
      rw [hv, hfind]
      rfl
    · have := List.mem_map_of_mem
        (fun x => if x.id == id then statusRowM now st x else x) hm
      simpa [hid] using this

theorem C1_set_status_contract_witness :
    ∃ m' db2, setStatusE 7 sampleDb 1 "in_progress".data = (.success 200 m', db2) ∧
      m' ∈ db2.missions ∧ m'.id = sampleMission.id ∧
      m'.mission_code = sampleMission.mission_code ∧
      m'.status = "in_progress".data ∧ m'.updated_at = 7 ∧
      m'.started_at = (if ("in_progress".data) = "in_progress".data then some 7
        else sampleMission.started_at) ∧
      m'.completed_at = (if ("in_progress".data) = "completed".data then some 7
        else sampleMission.completed_at) ∧
      (∀ x ∈ sampleDb.missions, x.id ≠ 1 → x ∈ db2.missions) :=
  C1_set_status_contract.2.2.1 7 sampleDb 1 "in_progress".data sampleMission
    (by decide) (by decide) (by decide) (by decide)

/-- C7 counterexample: all six required fields are present (none is
absent), yet the handler rejects with 400 and writes nothing, because
the JS falsy test also rejects present-but-empty strings. -/
theorem C7_create_counterexample :
    emptyBrandBody.vehicleBrand ≠ none ∧ emptyBrandBody.vehicleModel ≠ none ∧
    emptyBrandBody.pickupLocation ≠ none ∧ emptyBrandBody.deliveryLocation ≠ none ∧
    emptyBrandBody.clientName ≠ none ∧ emptyBrandBody.clientEmail ≠ none ∧
    createMission 2024 3 1 0 db0 emptyBrandBody =
      (.failure 400 "Champs requis manquants", db0) := by
  decide

/-- C7 (amended): create fails with 400 and performs no write when any
of the six required fields is absent or empty; otherwise it allocates a
mission code and, provided the code does not collide with a stored one,
inserts the row with status `pending` (201). The 2024-03-01 scenario
yields `FA-20240301-001`, status `pending`. -/
theorem C7_create_contract :
    (∀ y mo dy now db b,
      (truthy b.vehicleBrand && truthy b.vehicleModel && truthy b.pickupLocation &&
       truthy b.deliveryLocation && truthy b.clientName && truthy b.clientEmail) = false →
      createMission y mo dy now db b = (.failure 400 "Champs requis manquants", db)) ∧
    (∀ y mo dy now db b,
      (truthy b.vehicleBrand && truthy b.vehicleModel && truthy b.pickupLocation &&
       truthy b.deliveryLocation && truthy b.clientName && truthy b.clientEmail) = true →
      generateMissionCode y mo dy db.missions ∉ missionCodes db.missions →
      ∃ m, createMission y mo dy now db b =
        (.success 201 m, { db with missions := db.missions ++ [m],
                                   nextMissionId := db.nextMissionId + 1 }) ∧
        m.status = "pending".data ∧
        m.mission_code = generateMissionCode y mo dy db.missions ∧
        m.created_at = now) ∧
    (createMission 2024 3 1 100 db0 renaultBody = (.success 201 sampleMission, sampleDb) ∧
      sampleMission.mission_code = "FA-20240301-001".data ∧
      sampleMission.status = "pending".data) := by
  refine ⟨?_, ?_, by rfl, rfl, rfl⟩
  · intro y mo dy now db b h
    unfold createMission
    rw [h]
    rfl
  · intro y mo dy now db b h hfresh
    unfold createMission
    rw [h]
    rw [if_neg (by simp)]
    rw [if_neg hfresh]
    exact ⟨_, rfl, rfl, rfl, rfl⟩

theorem C7_create_contract_witness :
    ∃ m, createMission 2024 3 1 100 db0 renaultBody =
      (.success 201 m, { db0 with missions := db0.missions ++ [m],
                                  nextMissionId := db0.nextMissionId + 1 }) ∧
      m.status = "pending".data ∧
      m.mission_code = generateMissionCode 2024 3 1 db0.missions ∧
      m.created_at = 100 :=
  C7_create_contract.2.1 2024 3 1 100 db0 renaultBody (by decide) (by decide)

/-- A list with pairwise-distinct keys holds at most one row for any
key-determined predicate. -/
theorem filter_key_len_le_one {α β : Type} [DecidableEq β] (f : α → β) (k : β)
    (q : α → Bool) (hq : ∀ x, q x = true → f x = k) :
    ∀ l : List α, (l.map f).Nodup → (l.filter q).length ≤ 1 := by
  intro l
  induction l with
  | nil => intro h; simp
  | cons x xs ih =>
    intro h
    simp only [List.map_cons, List.nodup_cons] at h
    rw [List.filter_cons]
    by_cases hx : q x = true
    · rw [if_pos hx]
      have hxs : xs.filter q = [] := by
        rw [List.filter_eq_nil_iff]
        intro a ha hqa
        have hfa : f a = f x := by rw [hq a hqa, hq x hx]
        exact h.1 (hfa ▸ List.mem_map_of_mem f ha)
      simp [hxs]
    · rw [if_neg hx]
      exact ih h.2

/-- Full effect of one inspection submission on a store whose
inspections table respects the `mission_id` UNIQUE key and whose target
mission exists. -/
theorem submitInspection_effects (now : Nat) (db : DB) (id : Nat) (p : InspPayload)
    (hkey : (db.inspections.map (fun i => i.mission_id)).Nodup)
    (hex : ∃ m ∈ db.missions, m.id = id) :
    (∃ r, (submitInspection now db id p).1 = .success 200 r) ∧
    (((submitInspection now db id p).2.inspections.filter
        (fun i => i.mission_id == id)).length = 1) ∧
    (∀ i ∈ (submitInspection now db id p).2.inspections, i.mission_id = id →
      i.observations = p.observations ∧ i.signature = p.signature ∧
      i.checklist = p.checklist ∧ i.key_count = p.keyCount ∧
      i.optional_photos_count = p.optionalPhotos ∧ i.updated_at = now) ∧
    (∀ m ∈ (submitInspection now db id p).2.missions, m.id = id →
      m.observations = p.observations ∧ m.client_signature = p.signature) ∧
    ((submitInspection now db id p).2.inspections.map (fun i => i.mission_id)).Nodup ∧
    (submitInspection now db id p).2.missions.map (fun m => m.id) =
      db.missions.map (fun m => m.id) ∧
    (submitInspection now db id p).2.photos = db.photos := by
  have hsync_mem : ∀ m ∈ (db.missions.map
      (fun m => if m.id == id then missionSyncRow now p m else m)), m.id = id →
      m.observations = p.observations ∧ m.client_signature = p.signature := by
    intro m hm hid
    rcases List.mem_map.mp hm with ⟨x, hx, hfx⟩
    by_cases hxid : (x.id == id) = true
    · rw [if_pos hxid] at hfx
      rw [← hfx]
      exact ⟨rfl, rfl⟩
    · rw [if_neg hxid] at hfx
      rw [← hfx] at hid
      exact absurd (by simp [hid]) hxid
  have hsync_ids : (db.missions.map
      (fun m => if m.id == id then missionSyncRow now p m else m)).map
        (fun m => m.id) = db.missions.map (fun m => m.id) := by
    rw [List.map_map]
    apply List.map_congr_left
    intro x _
    by_cases hxid : (x.id == id) = true
    · rw [Function.comp_apply, if_pos hxid]
      rfl
    · rw [Function.comp_apply, if_neg hxid]
  cases hfind : db.inspections.find? (fun i => i.mission_id == id) with
  | none =>
    have hnone := List.find?_eq_none.mp hfind
    have hany : db.missions.any (fun m => m.id == id) = true := by
      rcases hex with ⟨m, hm, hid⟩
      exact List.any_eq_true.mpr ⟨m, hm, by simp [hid]⟩
    have heq : submitInspection now db id p =
        (.success 200 (newInspRow now id p),
         { db with
            inspections := db.inspections ++ [newInspRow now id p]
            missions := db.missions.map
              (fun m => if m.id == id then missionSyncRow now p m else m) }) := by
      unfold submitInspection
      rw [hfind, if_pos hany]
    rw [heq]
    have hfilt : db.inspections.filter (fun i => i.mission_id == id) = [] := by
      rw [List.filter_eq_nil_iff]
      exact hnone
    refine ⟨⟨_, rfl⟩, ?_, ?_, hsync_mem, ?_, hsync_ids, rfl⟩
    · simp [List.filter_append, hfilt, newInspRow]
    · intro i hi hid
      rcases List.mem_append.mp hi with hold | hnew
      · exact absurd (by simp [hid]) (hnone i hold)
      · rw [List.mem_singleton] at hnew
        subst hnew
        exact ⟨rfl, rfl, rfl, rfl, rfl, rfl⟩
    · simp only [List.map_append, List.map_cons, List.map_nil]
      rw [List.nodup_append]
      refine ⟨hkey, List.nodup_singleton _, ?_⟩
      intro a ha
      simp only [List.mem_singleton]
      intro hae
      rcases List.mem_map.mp ha with ⟨i, hi, hia⟩
      apply hnone i hi
      have : i.mission_id = id := by
        rw [hia, hae]
        rfl
      simp [this]
  | some old =>
    have heq : submitInspection now db id p =
        (.success 200 (inspRow now p old),
         { db with
            inspections := db.inspections.map
              (fun i => if i.mission_id == id then inspRow now p i else i)
            missions := db.missions.map
              (fun m => if m.id == id then missionSyncRow now p m else m) }) := by
      unfold submitInspection
      rw [hfind]
    rw [heq]
    have hpres : ∀ i : Inspection,
        (if i.mission_id == id then inspRow now p i else i).mission_id = i.mission_id := by
      intro i
      by_cases hi : (i.mission_id == id) = true
      · rw [if_pos hi]
        rfl
      · rw [if_neg hi]
    have hmapkeys : (db.inspections.map
        (fun i => if i.mission_id == id then inspRow now p i else i)).map
          (fun i => i.mission_id) = db.inspections.map (fun i => i.mission_id) := by
      rw [List.map_map]
      apply List.map_congr_left
      intro i _
      rw [Function.comp_apply]
      exact hpres i
    refine ⟨⟨_, rfl⟩, ?_, ?_, hsync_mem, ?_, hsync_ids, rfl⟩
    · have hcomp : (fun i : Inspection => i.mission_id == id) ∘
          (fun i => if i.mission_id == id then inspRow now p i else i) =
          (fun i : Inspection => i.mission_id == id) := by
        funext i
        simp only [Function.comp]
        rw [hpres i]
      rw [List.filter_map, hcomp, List.length_map]
      have hle : (db.inspections.filter (fun i => i.mission_id == id)).length ≤ 1 :=
        filter_key_len_le_one (fun i => i.mission_id) id _
          (fun x hx => by simpa using hx) db.inspections hkey
      have hqold :=
        @List.find?_some Inspection (fun i => i.mission_id == id) old db.inspections hfind
      have hge : old ∈ db.inspections.filter (fun i => i.mission_id == id) :=
        List.mem_filter.mpr ⟨List.mem_of_find?_eq_some hfind, hqold⟩
      have hpos : 0 < (db.inspections.filter (fun i => i.mission_id == id)).length :=
        List.length_pos.mpr (fun hnil => by rw [hnil] at hge; cases hge)
      omega
    · intro i hi hid
      rcases List.mem_map.mp hi with ⟨x, hx, hfx⟩
      by_cases hxid : (x.mission_id == id) = true
      · rw [if_pos hxid] at hfx
        rw [← hfx]
        exact ⟨rfl, rfl, rfl, rfl, rfl, rfl⟩
      · rw [if_neg hxid] at hfx
        subst hfx
        exact absurd (by simp [hid]) hxid
    · rw [hmapkeys]
      exact hkey

/-- C4: submitting an inspection for an existing mission upserts the
inspection keyed by the mission id; a resubmission overwrites every
inspection field with the new payload (no partial merge) keeping exactly
one row for the mission, and the mission row's `observations` and
`client_signature` are overwritten to match the payload exactly. -/
theorem C4_submit_inspection_upsert {db : DB} {id t1 t2 : Nat} {p1 p2 : InspPayload}
    (hkey : (db.inspections.map (fun i => i.mission_id)).Nodup)
    (hex : ∃ m ∈ db.missions, m.id = id) :
    (∃ r1, (submitInspection t1 db id p1).1 = .success 200 r1) ∧
    (∃ r2, (submitInspection t2 (submitInspection t1 db id p1).2 id p2).1 =
      .success 200 r2) ∧
    (((submitInspection t2 (submitInspection t1 db id p1).2 id p2).2.inspections.filter
        (fun i => i.mission_id == id)).length = 1) ∧
    (∀ i ∈ (submitInspection t2 (submitInspection t1 db id p1).2 id p2).2.inspections,
      i.mission_id = id →
      i.observations = p2.observations ∧ i.signature = p2.signature ∧
      i.checklist = p2.checklist ∧ i.key_count = p2.keyCount ∧
      i.optional_photos_count = p2.optionalPhotos) ∧
    (∀ m ∈ (submitInspection t2 (submitInspection t1 db id p1).2 id p2).2.missions,
      m.id = id →
      m.observations = p2.observations ∧ m.client_signature = p2.signature) := by
  rcases submitInspection_effects t1 db id p1 hkey hex
    with ⟨hr1, -, -, -, hkey1, hids1, -⟩
  have hex1 : ∃ m ∈ (submitInspection t1 db id p1).2.missions, m.id = id := by
    rcases hex with ⟨m, hm, hid⟩
    have : id ∈ (submitInspection t1 db id p1).2.missions.map (fun m => m.id) := by
      rw [hids1, ← hid]
      exact List.mem_map_of_mem _ hm
    rcases List.mem_map.mp this with ⟨m1, hm1, hid1⟩
    exact ⟨m1, hm1, hid1⟩
  rcases submitInspection_effects t2 (submitInspection t1 db id p1).2 id p2 hkey1 hex1
    with ⟨hr2, hcount, hfields, hsync, -, -, -⟩
  exact ⟨hr1, hr2, hcount,
    fun i hi hid => ⟨(hfields i hi hid).1, (hfields i hi hid).2.1, (hfields i hi hid).2.2.1,
      (hfields i hi hid).2.2.2.1, (hfields i hi hid).2.2.2.2.1⟩, hsync⟩

theorem C4_submit_inspection_upsert_witness :
    (∃ r1, (submitInspection 10 sampleDb 1 inspPayload1).1 = .success 200 r1) ∧
    (∃ r2, (submitInspection 20 (submitInspection 10 sampleDb 1 inspPayload1).2 1
      inspPayload2).1 = .success 200 r2) ∧
    (((submitInspection 20 (submitInspection 10 sampleDb 1 inspPayload1).2 1
        inspPayload2).2.inspections.filter (fun i => i.mission_id == 1)).length = 1) ∧
    (∀ i ∈ (submitInspection 20 (submitInspection 10 sampleDb 1 inspPayload1).2 1
        inspPayload2).2.inspections, i.mission_id = 1 →
      i.observations = inspPayload2.observations ∧ i.signature = inspPayload2.signature ∧
      i.checklist = inspPayload2.checklist ∧ i.key_count = inspPayload2.keyCount ∧
      i.optional_photos_count = inspPayload2.optionalPhotos) ∧
    (∀ m ∈ (submitInspection 20 (submitInspection 10 sampleDb 1 inspPayload1).2 1
        inspPayload2).2.missions, m.id = 1 →
      m.observations = inspPayload2.observations ∧
      m.client_signature = inspPayload2.signature) :=
  C4_submit_inspection_upsert (by decide) ⟨sampleMission, by decide, by decide⟩

/-- Full effect of one accepted photo upload on a store whose photos
table respects the `(mission_id, photo_type)` UNIQUE key and whose
target mission exists. -/
theorem uploadPhoto_effects (now : Nat) (db : DB) (missionId : Nat) (photoType : Str)
    (photo : FileBlob)
    (hkey : (db.photos.map (fun p => (p.mission_id, p.photo_type))).Nodup)
    (hmime : allowedMimeTypes.contains photo.mimetype = true)
    (hex : ∃ m ∈ db.missions, m.id = missionId) :
    (∃ r, (uploadPhoto now db missionId photoType (some photo)).1 = .success 200 r) ∧
    (((uploadPhoto now db missionId photoType (some photo)).2.photos.filter
        (fun p => p.mission_id == missionId && p.photo_type == photoType)).length = 1) ∧
    (∀ p ∈ (uploadPhoto now db missionId photoType (some photo)).2.photos,
      p.mission_id = missionId → p.photo_type = photoType →
      p.filename = natDigits now ++ '_' :: photo.name ∧
      p.original_name = photo.name ∧ p.file_size = photo.size ∧
      p.mime_type = photo.mimetype ∧ p.storage_url = mockStorageUrl photoType ∧
      p.uploaded_at = now) ∧
    ((uploadPhoto now db missionId photoType (some photo)).2.photos.map
      (fun p => (p.mission_id, p.photo_type))).Nodup ∧
    (uploadPhoto now db missionId photoType (some photo)).2.missions = db.missions := by
  have hany : db.missions.any (fun m => m.id == missionId) = true := by
    rcases hex with ⟨m, hm, hid⟩
    exact List.any_eq_true.mpr ⟨m, hm, by simp [hid]⟩
  have hc1 : ¬ ((!(allowedMimeTypes.contains photo.mimetype)) = true) := by
    rw [hmime]
    simp
  have hc2 : ¬ ((!(db.missions.any (fun m => m.id == missionId))) = true) := by
    rw [hany]
    simp
  cases hfind : db.photos.find?
      (fun p => p.mission_id == missionId && p.photo_type == photoType) with
  | none =>
    have hnone := List.find?_eq_none.mp hfind
    have heq : uploadPhoto now db missionId photoType (some photo) =
        (.success 200
          { id := db.nextPhotoId
            mission_id := missionId
            photo_type := photoType
            filename := natDigits now ++ '_' :: photo.name
            original_name := photo.name
            file_size := photo.size
            mime_type := photo.mimetype
            storage_url := mockStorageUrl photoType
            uploaded_at := now },
         { db with
            photos := db.photos ++
              [{ id := db.nextPhotoId
                 mission_id := missionId
                 photo_type := photoType
                 filename := natDigits now ++ '_' :: photo.name
                 original_name := photo.name
                 file_size := photo.size
                 mime_type := photo.mimetype
                 storage_url := mockStorageUrl photoType
                 uploaded_at := now }]
            nextPhotoId := db.nextPhotoId + 1 }) := by
      simp only [uploadPhoto]
      rw [if_neg hc1, if_neg hc2, hfind]
    rw [heq]
    have hfilt : db.photos.filter
        (fun p => p.mission_id == missionId && p.photo_type == photoType) = [] := by
      rw [List.filter_eq_nil_iff]
      exact hnone
    refine ⟨⟨_, rfl⟩, ?_, ?_, ?_, rfl⟩
    · simp [List.filter_append, hfilt]
    · intro p hp hpm hpt
      rcases List.mem_append.mp hp with hold | hnew
      · exact absurd (by simp [hpm, hpt]) (hnone p hold)
      · rw [List.mem_singleton] at hnew
        subst hnew
        exact ⟨rfl, rfl, rfl, rfl, rfl, rfl⟩
    · simp only [List.map_append, List.map_cons, List.map_nil]
      rw [List.nodup_append]
      refine ⟨hkey, List.nodup_singleton _, ?_⟩
      intro a ha
      simp only [List.mem_singleton]
      intro hae
      rcases List.mem_map.mp ha with ⟨p, hp, hpa⟩
      apply hnone p hp
      have hmp : p.mission_id = missionId ∧ p.photo_type = photoType := by
        have : (p.mission_id, p.photo_type) = (missionId, photoType) := by
          rw [hpa, hae]
        exact ⟨congrArg Prod.fst this, congrArg Prod.snd this⟩
      simp [hmp.1, hmp.2]
  | some old =>
    have heq : uploadPhoto now db missionId photoType (some photo) =
        (.success 200 (photoRow now photo (mockStorageUrl photoType) old),
         { db with
            photos := db.photos.map (fun p =>
              if p.mission_id == missionId && p.photo_type == photoType
              then photoRow now photo (mockStorageUrl photoType) p else p) }) := by
      simp only [uploadPhoto]
      rw [if_neg hc1, if_neg hc2, hfind]
    rw [heq]
    have hpres : ∀ p : Photo,
        ((if p.mission_id == missionId && p.photo_type == photoType
          then photoRow now photo (mockStorageUrl photoType) p else p).mission_id,
         (if p.mission_id == missionId && p.photo_type == photoType
          then photoRow now photo (mockStorageUrl photoType) p else p).photo_type) =
        (p.mission_id, p.photo_type) := by
      intro p
      by_cases hp : (p.mission_id == missionId && p.photo_type == photoType) = true
      · rw [if_pos hp]
        rfl
      · rw [if_neg hp]
    have hmapkeys : (db.photos.map (fun p =>
        if p.mission_id == missionId && p.photo_type == photoType
        then photoRow now photo (mockStorageUrl photoType) p else p)).map
          (fun p => (p.mission_id, p.photo_type)) =
        db.photos.map (fun p => (p.mission_id, p.photo_type)) := by
      rw [List.map_map]
      apply List.map_congr_left
      intro p _
      rw [Function.comp_apply]
      exact hpres p
    refine ⟨⟨_, rfl⟩, ?_, ?_, ?_, rfl⟩
    · have hcomp : (fun p : Photo => p.mission_id == missionId && p.photo_type == photoType) ∘
          (fun p => if p.mission_id == missionId && p.photo_type == photoType
            then photoRow now photo (mockStorageUrl photoType) p else p) =
          (fun p : Photo => p.mission_id == missionId && p.photo_type == photoType) := by
        funext p
        simp only [Function.comp]
        have := hpres p
        rw [show (if p.mission_id == missionId && p.photo_type == photoType
            then photoRow now photo (mockStorageUrl photoType) p else p).mission_id =
            p.mission_id from congrArg Prod.fst this,
          show (if p.mission_id == missionId && p.photo_type == photoType
            then photoRow now photo (mockStorageUrl photoType) p else p).photo_type =
            p.photo_type from congrArg Prod.snd this]
      rw [List.filter_map, hcomp, List.length_map]
      have hle : (db.photos.filter
          (fun p => p.mission_id == missionId && p.photo_type == photoType)).length ≤ 1 :=
        filter_key_len_le_one (fun p => (p.mission_id, p.photo_type))
          (missionId, photoType) _
          (fun x hx => by
            simp only [Bool.and_eq_true, beq_iff_eq] at hx
            simp [hx.1, hx.2]) db.photos hkey
      have hqold := @List.find?_some Photo
        (fun p => p.mission_id == missionId && p.photo_type == photoType) old
        db.photos hfind
      have hge : old ∈ db.photos.filter
          (fun p => p.mission_id == missionId && p.photo_type == photoType) :=
        List.mem_filter.mpr ⟨List.mem_of_find?_eq_some hfind, hqold⟩
      have hpos : 0 < (db.photos.filter
          (fun p => p.mission_id == missionId && p.photo_type == photoType)).length :=
        List.length_pos.mpr (fun hnil => by rw [hnil] at hge; cases hge)
      omega
    · intro p hp hpm hpt
      rcases List.mem_map.mp hp with ⟨x, hx, hfx⟩
      by_cases hxk : (x.mission_id == missionId && x.photo_type == photoType) = true
      · rw [if_pos hxk] at hfx
        rw [← hfx]
        exact ⟨rfl, rfl, rfl, rfl, rfl, rfl⟩
      · rw [if_neg hxk] at hfx
        subst hfx
        exact absurd (by simp [hpm, hpt]) hxk
    · rw [hmapkeys]
      exact hkey

/-- C5: for an existing mission, uploading twice with the same
`(mission, photoType)` key leaves exactly one photo row for that key,
whose filename, original name, size, MIME type, storage locator and
upload timestamp are those of the second upload; the key stays unique
(no duplicate row is ever created). -/
theorem C5_photo_upsert {db : DB} {missionId t1 t2 : Nat} {photoType : Str}
    {f1 f2 : FileBlob}
    (hkey : (db.photos.map (fun p => (p.mission_id, p.photo_type))).Nodup)
    (hm1 : allowedMimeTypes.contains f1.mimetype = true)
    (hm2 : allowedMimeTypes.contains f2.mimetype = true)
    (hex : ∃ m ∈ db.missions, m.id = missionId) :
    (∃ r1, (uploadPhoto t1 db missionId photoType (some f1)).1 = .success 200 r1) ∧
    (∃ r2, (uploadPhoto t2 (uploadPhoto t1 db missionId photoType (some f1)).2
      missionId photoType (some f2)).1 = .success 200 r2) ∧
    (((uploadPhoto t2 (uploadPhoto t1 db missionId photoType (some f1)).2
        missionId photoType (some f2)).2.photos.filter
        (fun p => p.mission_id == missionId && p.photo_type == photoType)).length = 1) ∧
    (∀ p ∈ (uploadPhoto t2 (uploadPhoto t1 db missionId photoType (some f1)).2
        missionId photoType (some f2)).2.photos,
      p.mission_id = missionId → p.photo_type = photoType →
      p.filename = natDigits t2 ++ '_' :: f2.name ∧
      p.original_name = f2.name ∧ p.file_size = f2.size ∧
      p.mime_type = f2.mimetype ∧ p.storage_url = mockStorageUrl photoType ∧
      p.uploaded_at = t2) ∧
    ((uploadPhoto t2 (uploadPhoto t1 db missionId photoType (some f1)).2
      missionId photoType (some f2)).2.photos.map
      (fun p => (p.mission_id, p.photo_type))).Nodup := by
  rcases uploadPhoto_effects t1 db missionId photoType f1 hkey hm1 hex
    with ⟨hr1, -, -, hkey1, hmiss1⟩
  have hex1 : ∃ m ∈ (uploadPhoto t1 db missionId photoType (some f1)).2.missions,
      m.id = missionId := by
    rw [hmiss1]
    exact hex
  rcases uploadPhoto_effects t2 (uploadPhoto t1 db missionId photoType (some f1)).2
    missionId photoType f2 hkey1 hm2 hex1 with ⟨hr2, hcount, hfields, hkey2, -⟩
  exact ⟨hr1, hr2, hcount, hfields, hkey2⟩

theorem C5_photo_upsert_witness :
    (∃ r1, (uploadPhoto 30 sampleDb 1 "front".data (some fileBlob1)).1 =
      .success 200 r1) ∧
    (∃ r2, (uploadPhoto 40 (uploadPhoto 30 sampleDb 1 "front".data (some fileBlob1)).2
      1 "front".data (some fileBlob2)).1 = .success 200 r2) ∧
    (((uploadPhoto 40 (uploadPhoto 30 sampleDb 1 "front".data (some fileBlob1)).2
        1 "front".data (some fileBlob2)).2.photos.filter
        (fun p => p.mission_id == 1 && p.photo_type == "front".data)).length = 1) ∧
    (∀ p ∈ (uploadPhoto 40 (uploadPhoto 30 sampleDb 1 "front".data (some fileBlob1)).2
        1 "front".data (some fileBlob2)).2.photos,
      p.mission_id = 1 → p.photo_type = "front".data →
      p.filename = natDigits 40 ++ '_' :: fileBlob2.name ∧
      p.original_name = fileBlob2.name ∧ p.file_size = fileBlob2.size ∧
      p.mime_type = fileBlob2.mimetype ∧ p.storage_url = mockStorageUrl ("front".data) ∧
      p.uploaded_at = 40) ∧
    ((uploadPhoto 40 (uploadPhoto 30 sampleDb 1 "front".data (some fileBlob1)).2
      1 "front".data (some fileBlob2)).2.photos.map
      (fun p => (p.mission_id, p.photo_type))).Nodup :=
  C5_photo_upsert (by decide) (by decide) (by decide)
    ⟨sampleMission, by decide, by decide⟩

/-- C6: the single-mission lookup answers 404 exactly when no mission's
code or id-text equals the token; on success it returns the aggregated
view of a matching stored mission, with inspection fields taken from the
(unique) inspection row and null-safe when none exists, and with the
photo summaries a permutation of the mission's photo rows ordered by
upload time ascending — a mission with zero photos yielding the empty
array. -/
theorem C6_get_by_code_or_id :
    (∀ db token, (∀ m ∈ db.missions, m.mission_code ≠ token ∧ natDigits m.id ≠ token) →
      getMissionByCodeOrId db token = .failure 404 "Mission introuvable") ∧
    (∀ db token v, getMissionByCodeOrId db token = .success 200 v →
      v.mission ∈ db.missions ∧
      (v.mission.mission_code = token ∨ natDigits v.mission.id = token) ∧
      v.photos.Pairwise (fun a b => a.uploaded_at ≤ b.uploaded_at) ∧
      v.photos.Perm
        ((db.photos.filter (fun p => p.mission_id == v.mission.id)).map photoSummary) ∧
      (db.photos.filter (fun p => p.mission_id == v.mission.id) = [] → v.photos = []) ∧
      (db.inspections.find? (fun i => i.mission_id == v.mission.id) = none →
        v.checklist = none ∧ v.key_count = none ∧ v.optional_photos_count = none) ∧
      (∀ i, db.inspections.find? (fun i2 => i2.mission_id == v.mission.id) = some i →
        v.checklist = i.checklist ∧ v.key_count = i.key_count ∧
        v.optional_photos_count = i.optional_photos_count)) := by
  constructor
  · intro db token h
    have hfilt : db.missions.filter
        (fun m => m.mission_code == token || natDigits m.id == token) = [] := by
      rw [List.filter_eq_nil_iff]
      intro m hm
      have := h m hm
      simp [this.1, this.2]
    unfold getMissionByCodeOrId
    rw [hfilt]
  · intro db token v hv
    unfold getMissionByCodeOrId at hv
    cases hfilt : db.missions.filter
        (fun m => m.mission_code == token || natDigits m.id == token) with
    | nil =>
      rw [hfilt] at hv
      cases hv
    | cons m rest =>
      rw [hfilt] at hv
      have hveq : aggregateMission db m = v := ((HResult.success.injEq _ _ _ _).mp hv).2
      have hmem : m ∈ db.missions.filter
          (fun m => m.mission_code == token || natDigits m.id == token) := by
        rw [hfilt]
        exact List.mem_cons_self m rest
      have hmf := List.mem_filter.mp hmem
      have hmatch : m.mission_code = token ∨ natDigits m.id = token := by
        have := hmf.2
        simp only [Bool.or_eq_true, beq_iff_eq] at this
        exact this
      subst hveq
      have hmissval : (aggregateMission db m).mission = m := rfl
      simp only [hmissval]
      refine ⟨hmf.1, hmatch, ?_, ?_, ?_, ?_, ?_⟩
      · have hsorted := List.sorted_insertionSort byUploadTime
          (db.photos.filter (fun p => p.mission_id == m.id))
        exact hsorted.map photoSummary
          (fun a b hab => hab)
      · exact (List.perm_insertionSort byUploadTime _).map photoSummary
      · intro hnil
        show ((db.photos.filter (fun p => p.mission_id == m.id)).insertionSort
          byUploadTime).map photoSummary = []
        rw [hnil]
        rfl
      · intro hnone
        show (db.inspections.find? (fun i => i.mission_id == m.id)).bind
            (fun i => i.checklist) = none ∧ _
        rw [hnone]
        exact ⟨rfl, by
          show (db.inspections.find? (fun i => i.mission_id == m.id)).bind
              (fun i => i.key_count) = none ∧ _
          rw [hnone]
          exact ⟨rfl, by
            show (db.inspections.find? (fun i => i.mission_id == m.id)).bind
                (fun i => i.optional_photos_count) = none
            rw [hnone]
            rfl⟩⟩
      · intro i hsome
        refine ⟨?_, ?_, ?_⟩
        · show (db.inspections.find? (fun i => i.mission_id == m.id)).bind
              (fun i => i.checklist) = i.checklist
          rw [hsome]
          rfl
        · show (db.inspections.find? (fun i => i.mission_id == m.id)).bind
              (fun i => i.key_count) = i.key_count
          rw [hsome]
          rfl
        · show (db.inspections.find? (fun i => i.mission_id == m.id)).bind
              (fun i => i.optional_photos_count) = i.optional_photos_count
          rw [hsome]
          rfl

theorem C6_get_by_code_or_id_witness :
    getMissionByCodeOrId aggDb ("zzz".data) = .failure 404 "Mission introuvable" ∧
    ((aggregateMission aggDb sampleMission).mission ∈ aggDb.missions ∧
      ((aggregateMission aggDb sampleMission).mission.mission_code = "FA-20240301-001".data ∨
        natDigits (aggregateMission aggDb sampleMission).mission.id = "FA-20240301-001".data) ∧
      (aggregateMission aggDb sampleMission).photos.Pairwise
        (fun a b => a.uploaded_at ≤ b.uploaded_at) ∧
      (aggregateMission aggDb sampleMission).photos.Perm
        ((aggDb.photos.filter (fun p =>
          p.mission_id == (aggregateMission aggDb sampleMission).mission.id)).map
          photoSummary) ∧
      (aggDb.photos.filter (fun p =>
          p.mission_id == (aggregateMission aggDb sampleMission).mission.id) = [] →
        (aggregateMission aggDb sampleMission).photos = []) ∧
      (aggDb.inspections.find? (fun i =>
          i.mission_id == (aggregateMission aggDb sampleMission).mission.id) = none →
        (aggregateMission aggDb sampleMission).checklist = none ∧
        (aggregateMission aggDb sampleMission).key_count = none ∧
        (aggregateMission aggDb sampleMission).optional_photos_count = none) ∧
      (∀ i, aggDb.inspections.find? (fun i2 =>
          i2.mission_id == (aggregateMission aggDb sampleMission).mission.id) = some i →
        (aggregateMission aggDb sampleMission).checklist = i.checklist ∧
        (aggregateMission aggDb sampleMission).key_count = i.key_count ∧
        (aggregateMission aggDb sampleMission).optional_photos_count =
          i.optional_photos_count)) :=
  ⟨C6_get_by_code_or_id.1 aggDb ("zzz".data) (by decide),
   C6_get_by_code_or_id.2 aggDb ("FA-20240301-001".data)
     (aggregateMission aggDb sampleMission) (by rfl)⟩

/-- C8: search applies the optional filters conjunctively — every
returned row is a stored mission satisfying the whole WHERE clause
(case-insensitive substring for the free-text and brand filters, exact
status, inclusive creation-time bounds) — caps the result at 100 rows in
creation-time-descending order, returns the 100 most recent missions
when no filter is supplied, and the `status=completed` plus
`vehicleBrand=ren` filter pair matches a completed Renault mission. -/
theorem C8_search_contract :
    (∀ db f m, m ∈ searchMissions db f → m ∈ db.missions ∧ matchesFilters f m = true) ∧
    (∀ db f, (searchMissions db f).length ≤ 100) ∧
    (∀ db f, (searchMissions db f).Pairwise (fun a b => b.created_at ≤ a.created_at)) ∧
    (∀ db, ∃ l : List Mission, l.Perm db.missions ∧
      l.Pairwise (fun a b => b.created_at ≤ a.created_at) ∧
      searchMissions db noFilters = l.take 100) ∧
    (matchesFilters { status := some ("completed".data), vehicleBrand := some ("ren".data) }
      renaultCompletedMission = true) := by
  refine ⟨?_, ?_, ?_, ?_, by decide⟩
  · intro db f m hm
    have h1 : m ∈ (db.missions.filter (matchesFilters f)).insertionSort newestFirst :=
      List.mem_of_mem_take hm
    have h2 : m ∈ db.missions.filter (matchesFilters f) :=
      (List.mem_insertionSort newestFirst).mp h1
    exact ⟨(List.mem_filter.mp h2).1, (List.mem_filter.mp h2).2⟩
  · intro db f
    exact List.length_take_le 100 _
  · intro db f
    have hs := List.sorted_insertionSort newestFirst (db.missions.filter (matchesFilters f))
    exact hs.sublist (List.take_sublist 100 _)
  · intro db
    refine ⟨db.missions.insertionSort newestFirst,
      List.perm_insertionSort newestFirst db.missions,
      List.sorted_insertionSort newestFirst db.missions, ?_⟩
    unfold searchMissions
    rw [List.filter_eq_self.mpr]
    intro m _
    rfl

theorem C8_search_contract_witness :
    sampleMission ∈ aggDb.missions ∧ matchesFilters noFilters sampleMission = true :=
  C8_search_contract.1 aggDb noFilters sampleMission (by decide)

/-- C9: the basic stats endpoint returns the per-status counts of the
store, and answers 200 with all counts zero instead of an error when the
store query fails; the advanced stats of an empty store are all-zero
basic counts, an empty monthly sequence, an empty top-vehicles sequence
and a zero average processing time. -/
theorem C9_stats_contract :
    (∀ db, ∃ c, basicStats true db = .success 200 c ∧
      c.total = db.missions.length ∧
      c.pending = (db.missions.filter (fun m => m.status == "pending".data)).length ∧
      c.in_progress =
        (db.missions.filter (fun m => m.status == "in_progress".data)).length ∧
      c.completed = (db.missions.filter (fun m => m.status == "completed".data)).length ∧
      c.cancelled =
        (db.missions.filter (fun m => m.status == "cancelled".data)).length) ∧
    (∀ db, basicStats false db = .success 200 ⟨0, 0, 0, 0, 0⟩) ∧
    (∀ monthOf cutoff, advancedStats monthOf cutoff db0 =
      { basic := ⟨0, 0, 0, 0, 0⟩, monthly := [], topVehicles := [],
        avgProcessingHours := 0 }) := by
  refine ⟨?_, fun db => rfl, ?_⟩
  · intro db
    exact ⟨statusCounts db.missions, rfl, rfl, rfl, rfl, rfl, rfl⟩
  · intro monthOf cutoff
    simp [advancedStats, monthlyCounts, topVehicleCounts, avgHours, statusCounts,
      countStatus, db0]

theorem C10_search_route_shadowed :
    dispatchGET ["api", "missions", "search"] =
      some (RouteTag.missionByCode, [("code", "search")]) ∧
    (∀ params, dispatchGET ["api", "missions", "search"] ≠
      some (RouteTag.missionsSearch, params)) ∧
    (∀ db, (∀ m ∈ db.missions, m.mission_code ≠ "search".data ∧
        natDigits m.id ≠ "search".data) →
      getMissionByCodeOrId db ("search".data) = .failure 404 "Mission introuvable") := by
  refine ⟨by decide, ?_, ?_⟩
  · intro params h
    have h1 : dispatchGET ["api", "missions", "search"] =
        some (RouteTag.missionByCode, [("code", "search")]) := by decide
    rw [h1] at h
    have := (Option.some.injEq _ _).mp h
    have htag := congrArg Prod.fst this
    cases htag
  · intro db h
    have hfilt : db.missions.filter
        (fun m => m.mission_code == "search".data ||
          natDigits m.id == "search".data) = [] := by
      rw [List.filter_eq_nil_iff]
      intro m hm
      have := h m hm
      simp [this.1, this.2]
    unfold getMissionByCodeOrId
    rw [hfilt]

theorem C10_search_route_shadowed_witness :
    dispatchGET ["api", "missions", "search"] =
      some (RouteTag.missionByCode, [("code", "search")]) ∧
    getMissionByCodeOrId aggDb ("search".data) = .failure 404 "Mission introuvable" :=
  ⟨C10_search_route_shadowed.1, C10_search_route_shadowed.2.2 aggDb (by decide)⟩
